import Mathlib

/-!
Verification of the AIDebate repository against its specification.

The development shallowly embeds the message bus (`app/chat_log.py`), the
autonomous bot decision engine (`app/bot_client.py`), the session
orchestrator (`app/moderator.py`) and the voting tally (`app/voting.py`).
Wall-clock timestamps delivered by `time.time()` and the floating point
accumulators of the Python source are modelled as rationals; random draws
and the opaque language-model calls are modelled as oracle inputs to the
embedded functions.
-/

namespace AIDebate

/-! ## Message bus: `app/chat_log.py` -/

/-- Embedding of the `Message` dataclass of `app/chat_log.py`.  The
`metadata` dictionary is omitted: no verified property reads it. -/
structure Message where
  sender : String
  content : String
  timestamp : ℚ
  message_id : Nat
  message_type : String
deriving Repr, DecidableEq

/-- State of `ChatLog` (`app/chat_log.py`).  `messages` is the
`deque(maxlen=max_messages)` holding the retained window oldest-first;
`subscribers` is the subscriber list, each queue modelled as a pair of a
queue identity (in Python, the object identity of the `asyncio.Queue`)
and its pending contents oldest-first; `next_queue_id` supplies fresh
queue identities.  The web-broadcast hook and the statistics dictionary
are omitted: they do not feed back into the verified behaviour. -/
structure ChatLog where
  max_messages : Nat
  messages : List Message
  message_counter : Nat
  subscribers : List (Nat × List Message)
  next_queue_id : Nat
deriving Repr, DecidableEq

def mkChatLog (max_messages : Nat) : ChatLog :=
  ⟨max_messages, [], 0, [], 0⟩

/-- `collections.deque(maxlen=n).append`: the new element goes to the
right and elements are evicted from the left while the length exceeds
`n`; eviction is silent, no error is raised. -/
def dequeAppend (n : Nat) (ms : List Message) (m : Message) : List Message :=
  let l := ms ++ [m]
  if n < l.length then l.drop (l.length - n) else l

/-- The arguments of one `add_message` call, together with the
`time.time()` value observed during that call. -/
structure AddInput where
  sender : String
  content : String
  message_type : String
  timestamp : ℚ
deriving Repr, DecidableEq

/-- `ChatLog._notify_subscribers`: every live queue receives the new
message.  `asyncio.Queue` never carries a `_closed` attribute, so
`getattr(q, "_closed", False)` is always `False` and the removal filter
keeps every queue; `put` on an unbounded queue appends and cannot
fail. -/
def notifySubscribers (subs : List (Nat × List Message)) (m : Message) :
    List (Nat × List Message) :=
  subs.map (fun q => (q.1, q.2 ++ [m]))

/-- `ChatLog.add_message`: increments the counter, stamps the new message
with it, appends under the capacity bound and fans out to every
subscriber.  Statistics updates are omitted. -/
def add_message (log : ChatLog) (inp : AddInput) : ChatLog × Message :=
  let counter := log.message_counter + 1
  let m : Message :=
    ⟨inp.sender, inp.content, inp.timestamp, counter, inp.message_type⟩
  ({ log with
      message_counter := counter
      messages := dequeAppend log.max_messages log.messages m
      subscribers := notifySubscribers log.subscribers m }, m)

/-- `ChatLog.subscribe`: registers a fresh empty queue and returns it. -/
def subscribe (log : ChatLog) : ChatLog × Nat :=
  ({ log with
      subscribers := log.subscribers ++ [(log.next_queue_id, [])]
      next_queue_id := log.next_queue_id + 1 }, log.next_queue_id)

/-- `ChatLog.unsubscribe`: removes the queue from the subscriber list
(queue identities are unique, so removing the first occurrence equals
removing every occurrence). -/
def unsubscribe (log : ChatLog) (q : Nat) : ChatLog :=
  { log with subscribers := log.subscribers.filter (fun p => p.1 != q) }

/-- A sequence of `add_message` calls, in order. -/
def addAll (log : ChatLog) (xs : List AddInput) : ChatLog :=
  xs.foldl (fun l i => (add_message l i).1) log

/-- The messages that `add_message` builds from the inputs `xs` when the
counter starts at `c`: ids `c+1, c+2, …` in append order. -/
def numberedFrom (c : Nat) : List AddInput → List Message
  | [] => []
  | x :: xs =>
      ⟨x.sender, x.content, x.timestamp, c + 1, x.message_type⟩ ::
        numberedFrom (c + 1) xs

/-- Pending contents of subscriber queue `q`, `none` if `q` is not a live
subscriber. -/
def queueContents (log : ChatLog) (q : Nat) : Option (List Message) :=
  (log.subscribers.find? (fun p => p.1 == q)).map (fun p => p.2)

lemma dequeAppend_eq_rtake (n : Nat) (ms : List Message) (m : Message) :
    dequeAppend n ms m = (ms ++ [m]).rtake n := by
  simp only [dequeAppend, List.rtake]
  split
  · rfl
  · rename_i h
    rw [Nat.sub_eq_zero_of_le (Nat.le_of_not_lt h), List.drop_zero]

lemma dequeAppend_length_le (n : Nat) (ms : List Message) (m : Message) :
    (dequeAppend n ms m).length ≤ n ∨ (dequeAppend n ms m).length ≤ ms.length + 1 := by
  simp only [dequeAppend]
  split
  · left; simp; omega
  · right; simp

lemma rtake_of_length_le (n : Nat) (l : List Message) (h : l.length ≤ n) :
    l.rtake n = l := by
  simp only [List.rtake]
  rw [Nat.sub_eq_zero_of_le h, List.drop_zero]

lemma rtake_length_le (n : Nat) (l : List Message) : (l.rtake n).length ≤ n := by
  simp only [List.rtake, List.length_drop]
  omega

lemma rtake_append_rtake (n : Nat) (a b : List Message) :
    (a.rtake n ++ b).rtake n = (a ++ b).rtake n := by
  rw [List.rtake_eq_reverse_take_reverse, List.rtake_eq_reverse_take_reverse,
    List.rtake_eq_reverse_take_reverse]
  rw [List.reverse_append, List.reverse_reverse, List.reverse_append]
  rw [List.take_append_eq_append_take, List.take_append_eq_append_take,
    List.take_take]
  rw [Nat.min_eq_left (Nat.sub_le n b.reverse.length)]

lemma addAll_messages (xs : List AddInput) : ∀ log : ChatLog,
    log.messages.length ≤ log.max_messages →
    ((addAll log xs).messages
      = (log.messages ++ numberedFrom log.message_counter xs).rtake log.max_messages
    ∧ (addAll log xs).message_counter = log.message_counter + xs.length
    ∧ (addAll log xs).max_messages = log.max_messages) := by
  induction xs with
  | nil =>
      intro log hlen
      refine ⟨?_, by simp [addAll], rfl⟩
      simp only [addAll, List.foldl_nil, numberedFrom, List.append_nil]
      exact (rtake_of_length_le _ _ hlen).symm
  | cons x xs ih =>
      intro log _
      have step : addAll log (x :: xs) = addAll (add_message log x).1 xs := rfl
      have hlen' : (add_message log x).1.messages.length ≤
          (add_message log x).1.max_messages := by
        show (dequeAppend log.max_messages log.messages _).length ≤ log.max_messages
        rw [dequeAppend_eq_rtake]
        exact rtake_length_le _ _
      obtain ⟨h1, h2, h3⟩ := ih (add_message log x).1 hlen'
      refine ⟨?_, ?_, ?_⟩
      · rw [step, h1]
        simp only [add_message, dequeAppend_eq_rtake]
        rw [rtake_append_rtake]
        simp [numberedFrom, List.append_assoc]
      · rw [step, h2]
        simp only [add_message, numberedFrom]
        simp [List.length_cons]
        omega
      · rw [step, h3]; rfl

lemma numberedFrom_map_id (xs : List AddInput) : ∀ c : Nat,
    (numberedFrom c xs).map Message.message_id = List.range' (c + 1) xs.length := by
  induction xs with
  | nil => intro c; simp [numberedFrom]
  | cons x xs ih =>
      intro c
      simp [numberedFrom, List.range'_succ, ih (c + 1)]

/-- C1.  Message ids are assigned strictly increasing and gapless from 1
in append order; the stored window always holds the most recently
appended messages up to the capacity, with their original ids unchanged
(oldest evicted silently, never renumbered); in the concrete scenario
with capacity 3, appending A, B, C, D leaves the window [B, C, D] with
ids 2, 3, 4 (overall ids 1..4). -/
theorem c1_ids_gapless_window (N : Nat) (xs : List AddInput) :
    (numberedFrom 0 xs).map Message.message_id = List.range' 1 xs.length
    ∧ (addAll (mkChatLog N) xs).messages = (numberedFrom 0 xs).rtake N
    ∧ (addAll (mkChatLog N) xs).message_counter = xs.length
    ∧ (addAll (mkChatLog 3)
        [⟨"u", "A", "chat", 1⟩, ⟨"u", "B", "chat", 2⟩,
         ⟨"u", "C", "chat", 3⟩, ⟨"u", "D", "chat", 4⟩]).messages.map
          (fun m => (m.content, m.message_id))
        = [("B", 2), ("C", 3), ("D", 4)] := by
  refine ⟨numberedFrom_map_id xs 0, ?_, ?_, by decide⟩
  · have h := (addAll_messages xs (mkChatLog N) (by simp [mkChatLog])).1
    simpa [mkChatLog] using h
  · have h := (addAll_messages xs (mkChatLog N) (by simp [mkChatLog])).2.1
    simpa [mkChatLog] using h

lemma find?_notify (subs : List (Nat × List Message)) (m : Message) (q : Nat) :
    (notifySubscribers subs m).find? (fun p => p.1 == q)
      = (subs.find? (fun p => p.1 == q)).map (fun p => (p.1, p.2 ++ [m])) := by
  induction subs with
  | nil => rfl
  | cons s subs ih =>
      by_cases h : s.1 = q
      · simp [notifySubscribers, List.find?_cons, h]
      · simp only [notifySubscribers, List.map_cons, List.find?_cons] at *
        have hb : (s.1 == q) = false := beq_false_of_ne h
        simp [hb, ih, notifySubscribers]

lemma queueContents_add (log : ChatLog) (inp : AddInput) (q : Nat) :
    queueContents (add_message log inp).1 q
      = (queueContents log q).map
          (fun acc => acc ++ [(add_message log inp).2]) := by
  unfold queueContents add_message
  simp only [find?_notify]
  cases log.subscribers.find? (fun p => p.1 == q) <;> rfl

lemma queueContents_addAll (xs : List AddInput) : ∀ (log : ChatLog) (q : Nat),
    queueContents (addAll log xs) q
      = (queueContents log q).map
          (fun acc => acc ++ numberedFrom log.message_counter xs) := by
  induction xs with
  | nil =>
      intro log q
      cases h : queueContents log q <;> simp [addAll, numberedFrom, h]
  | cons x xs ih =>
      intro log q
      have step : addAll log (x :: xs) = addAll (add_message log x).1 xs := rfl
      rw [step, ih, queueContents_add]
      cases h : queueContents log q <;> simp [numberedFrom, h, add_message]

lemma queueContents_subscribe_self (log : ChatLog)
    (hfresh : ∀ p ∈ log.subscribers, p.1 < log.next_queue_id) :
    queueContents (subscribe log).1 (subscribe log).2 = some [] := by
  unfold queueContents subscribe
  simp only
  rw [List.find?_append]
  have hnone : log.subscribers.find? (fun p => p.1 == log.next_queue_id) = none := by
    rw [List.find?_eq_none]
    intro p hp
    have := hfresh p hp
    simp only [beq_iff_eq]
    omega
  simp [hnone]

lemma queueContents_unsubscribe_self (log : ChatLog) (q : Nat) :
    queueContents (unsubscribe log q) q = none := by
  unfold queueContents unsubscribe
  simp only
  have : (log.subscribers.filter (fun p => p.1 != q)).find?
      (fun p => p.1 == q) = none := by
    rw [List.find?_eq_none]
    intro p hp
    have := List.of_mem_filter hp
    simpa using this
  simp [this]

/-- C2.  A queue returned by `subscribe` starts empty (no history
replay); every message appended afterwards is delivered to it in append
order exactly once; after `unsubscribe` the queue is no longer live and
later appends deliver nothing to it. -/
theorem c2_subscription_delivery (log : ChatLog)
    (hfresh : ∀ p ∈ log.subscribers, p.1 < log.next_queue_id) :
    queueContents (subscribe log).1 (subscribe log).2 = some []
    ∧ (∀ ys, queueContents (addAll (subscribe log).1 ys) (subscribe log).2
        = some (numberedFrom log.message_counter ys))
    ∧ (∀ ys, queueContents
        (unsubscribe (addAll (subscribe log).1 ys) (subscribe log).2)
        (subscribe log).2 = none)
    ∧ (∀ ys zs, queueContents
        (addAll (unsubscribe (addAll (subscribe log).1 ys) (subscribe log).2) zs)
        (subscribe log).2 = none) := by
  have hself := queueContents_subscribe_self log hfresh
  refine ⟨hself, ?_, ?_, ?_⟩
  · intro ys
    rw [queueContents_addAll, hself]
    rfl
  · intro ys
    exact queueContents_unsubscribe_self _ _
  · intro ys zs
    rw [queueContents_addAll, queueContents_unsubscribe_self]
    rfl

/-- Witness for C2 at a concrete bus: fresh log, one prior append, one
subscriber, two appends after subscribing. -/
theorem c2_subscription_delivery_witness :
    queueContents (subscribe (addAll (mkChatLog 10) [⟨"a", "x", "chat", 1⟩])).1
      (subscribe (addAll (mkChatLog 10) [⟨"a", "x", "chat", 1⟩])).2 = some [] :=
  (c2_subscription_delivery (addAll (mkChatLog 10) [⟨"a", "x", "chat", 1⟩])
    (by decide)).1

/-! ## Autonomous bot engine: `app/bot_client.py` -/

/-- Configuration fields of `BotConfig` (`app/bot_client.py`) read by the
decision engine, with the source's default values.  `burning_questions`
is the three-question sample drawn by `_generate_burning_questions` at
construction time; it is fixed for the whole monitoring run. -/
structure BotConfig where
  name : String
  personality : String
  stance : String
  check_interval : ℚ := 2
  min_cooldown : ℚ := 5
  max_cooldown : ℚ := 12
  silence_tolerance : ℚ := 8
  burning_questions : List String := []
deriving Repr, DecidableEq

/-- Mutable per-agent state of `BotClient` touched by the autonomous
monitoring loop.  Timing statistics are omitted. -/
structure BotState where
  last_response_time : ℚ
  total_responses : Nat
  current_cooldown : ℚ
  conversation_energy : ℚ
  response_urgency : ℚ
  missed_opportunities : Nat
  is_monitoring : Bool
  responses_generated : Nat
  autonomous_responses : Nat
  errors : Nat
  triggers_detected : Nat
  passes_made : Nat
  silence_breaks : Nat
  conversation_starters : Nat
deriving Repr, DecidableEq

/-- Agent state right after `start_autonomous_monitoring`: the
constructor initialisers of `BotClient.__init__` with the monitoring flag
raised. -/
def initBotState (cfg : BotConfig) : BotState where
  last_response_time := 0
  total_responses := 0
  current_cooldown := cfg.min_cooldown
  conversation_energy := 1
  response_urgency := 0
  missed_opportunities := 0
  is_monitoring := true
  responses_generated := 0
  autonomous_responses := 0
  errors := 0
  triggers_detected := 0
  passes_made := 0
  silence_breaks := 0
  conversation_starters := 0

def charsStartWith : List Char → List Char → Bool
  | _, [] => true
  | [], _ :: _ => false
  | a :: as, b :: bs => a == b && charsStartWith as bs

/-- Python's substring test `needle in hay` over character lists. -/
def charsContain : List Char → List Char → Bool
  | [], needle => needle.isEmpty
  | a :: as, needle => charsStartWith (a :: as) needle || charsContain as needle

def substrOf (needle hay : String) : Bool :=
  charsContain hay.toList needle.toList

/-- Python `s.rstrip("s")`: drop every trailing `s`. -/
def rstripS (s : String) : String :=
  String.mk ((s.toList.reverse.dropWhile (fun c => c == 's')).reverse)

/-- The `name_variants` list of `_analyze_response_triggers`. -/
def nameVariants (cfg : BotConfig) : List String :=
  [cfg.name.toLower, rstripS cfg.name.toLower, cfg.name.toLower ++ ":",
   (cfg.name.toLower).replace " " "_", (cfg.name.toLower).replace "_" " ",
   "everyone", "all", "thoughts", "anyone"]

/-- Observations that `_process_new_message` and
`_analyze_response_triggers` derive from the triggering message and the
chat history at one cycle: the lowercased content, its word tokens (the
word-boundary-anchored `re.search` of the source is modelled as
membership of the variant in this token list), the lowercased
recent-context text, whether the history is non-empty, the timestamp of
the latest history message, and the agent's own message count in the
10-message recent window. -/
structure MsgView where
  sender : String
  content_lower : String
  words : List String
  recent_lower : String
  history_nonempty : Bool
  prev_timestamp : ℚ
  my_recent_count : Nat
deriving Repr, DecidableEq

/-- The trigger-signal record built by `_analyze_response_triggers`. -/
structure Triggers where
  direct_mention : Bool
  stance_challenged : Bool
  question_in_domain : Bool
  topic_shift : Bool
  silence_too_long : Bool
  expertise_needed : Bool
  emotional_trigger : Bool
deriving Repr, DecidableEq

def challengeWords : List String :=
  ["wrong", "disagree", "against", "oppose", "bad idea", "fails", "problem",
   "no", "but", "however"]

def supportWords : List String :=
  ["agree", "support", "favor", "good idea", "beneficial", "works",
   "success", "yes", "exactly", "true"]

def questionIndicators : List String :=
  ["?", "what", "how", "why", "when", "where", "clarify", "explain",
   "think", "opinion"]

def expertiseWords : List (String × List String) :=
  [("philosophical",
    ["meaning", "purpose", "ethics", "moral", "should", "ought", "values",
     "principle"]),
   ("analytical",
    ["data", "evidence", "study", "research", "statistics", "proof",
     "numbers", "facts"]),
   ("practical",
    ["implement", "real world", "actually", "practice", "work",
     "application"]),
   ("critical",
    ["assume", "problem", "issue", "concern", "risk", "wrong", "flaw"]),
   ("passionate",
    ["amazing", "incredible", "urgent", "important", "critical",
     "essential"]),
   ("diplomatic",
    ["balance", "compromise", "middle", "together", "common"])]

/-- `_analyze_response_triggers`.  `topic_shift` and `emotional_trigger`
are initialised `False` and never set by the source. -/
def analyzeResponseTriggers (cfg : BotConfig) (v : MsgView) (now : ℚ) :
    Triggers :=
  let mention_found := (nameVariants cfg).any (fun t => v.words.contains t)
  let direct_mention :=
    mention_found ||
      (substrOf "what do you think" v.content_lower && cfg.stance != "neutral")
  let stance_challenged :=
    if cfg.stance == "pro" then
      challengeWords.any (fun w => substrOf w v.recent_lower)
    else if cfg.stance == "con" then
      supportWords.any (fun w => substrOf w v.recent_lower)
    else false
  let question_in_domain :=
    cfg.stance == "neutral" &&
      questionIndicators.any (fun w => substrOf w v.content_lower)
  let silence_too_long :=
    v.history_nonempty && decide (10 < now - v.prev_timestamp)
  let expertise_needed :=
    expertiseWords.any (fun dw =>
      substrOf dw.1 cfg.personality.toLower &&
        dw.2.any (fun w => substrOf w v.content_lower))
  ⟨direct_mention, stance_challenged, question_in_domain, false,
    silence_too_long, expertise_needed, false⟩

def triggerCount (t : Triggers) : Nat :=
  (if t.direct_mention then 1 else 0) + (if t.stance_challenged then 1 else 0)
    + (if t.question_in_domain then 1 else 0) + (if t.topic_shift then 1 else 0)
    + (if t.silence_too_long then 1 else 0) + (if t.expertise_needed then 1 else 0)
    + (if t.emotional_trigger then 1 else 0)

/-- `_get_personality_multiplier`. -/
def getPersonalityMultiplier (cfg : BotConfig) (t : Triggers) : ℚ :=
  let p := cfg.personality.toLower
  if substrOf "aggressive" p || substrOf "assertive" p then 7/5
  else if substrOf "passionate" p || substrOf "excited" p then 3/2
  else if substrOf "thoughtful" p || substrOf "philosophical" p then
    if t.question_in_domain then 8/5 else 1
  else if substrOf "analytical" p || substrOf "data-driven" p then
    if t.expertise_needed then 3/2 else 11/10
  else if substrOf "critical" p then
    if t.stance_challenged then 7/5 else 6/5
  else if substrOf "balanced" p || substrOf "diplomatic" p then
    if t.stance_challenged then 13/10 else 11/10
  else 1

/-- Burning-question scan of `_should_respond_autonomously`: some
sampled question has one of its first three words (Python
`question.lower().split()[:3]`, modelled with `splitOn " "`) occurring in
the message content. -/
def burningHit (cfg : BotConfig) (content_lower : String) : Bool :=
  cfg.burning_questions.any (fun q =>
    ((q.toLower.splitOn " ").take 3).any (fun w => substrOf w content_lower))

/-- The `base_probability` pipeline of `_should_respond_autonomously` in
source order: the 0.80 base, the fixed trigger increments, the burning
question bonus, the recent-participation adjustment, the personality
multiplier, the energy and urgency additions, and the
missed-opportunity boost. -/
def respondProbability (cfg : BotConfig) (s : BotState) (v : MsgView)
    (now : ℚ) : ℚ :=
  let triggers := analyzeResponseTriggers cfg v now
  let p : ℚ := 4/5
  let p := if triggers.stance_challenged then p + 4/5 else p
  let p := if triggers.question_in_domain then p + 7/10 else p
  let p := if triggers.topic_shift then p + 1/2 else p
  let p := if triggers.silence_too_long then p + 3/5 else p
  let p := if triggers.expertise_needed then p + 3/5 else p
  let p := if burningHit cfg v.content_lower then p + 1/2 else p
  let p := if v.my_recent_count = 0 then p + 3/20
           else if 3 ≤ v.my_recent_count then p * (7/10) else p
  let p := p * getPersonalityMultiplier cfg triggers
  let p := p + s.conversation_energy * (1/5)
  let p := p + s.response_urgency * (3/10)
  if 2 < s.missed_opportunities then p + 1/5 else p

/-- `_should_respond_autonomously`.  `draw` is the `random.random()`
sample.  A direct mention returns `True` before the draw; otherwise the
pipelined probability is clamped at 0.95 and sampled.  Returns the
decision together with the statistics the method updates. -/
def shouldRespondAutonomously (cfg : BotConfig) (s : BotState) (v : MsgView)
    (now draw : ℚ) : Bool × BotState :=
  if (analyzeResponseTriggers cfg v now).direct_mention then
    (true, { s with triggers_detected :=
        s.triggers_detected + triggerCount (analyzeResponseTriggers cfg v now) })
  else if draw < min (respondProbability cfg s v now) (19/20) then
    (true, { s with triggers_detected :=
        s.triggers_detected + triggerCount (analyzeResponseTriggers cfg v now) })
  else
    (false, { s with
        triggers_detected :=
          s.triggers_detected + triggerCount (analyzeResponseTriggers cfg v now),
        passes_made := s.passes_made + 1,
        missed_opportunities := s.missed_opportunities + 1 })

/-- Outcome of the opaque `ai_provider.generate_response` call: the
returned text, or a raised exception. -/
inductive GenOutcome where
  | success (text : String)
  | failure
deriving Repr, DecidableEq

/-- Python's blank test `not (response and response.strip())`: the
stripped text is empty exactly when every character is whitespace (and
an empty string is falsy), so the guard fails exactly on all-whitespace
text. -/
def isBlank (text : String) : Bool :=
  text.toList.all Char.isWhitespace

/-- `_generate_autonomous_response`: posts the generated text when it is
non-blank and performs the on-success state updates; a blank result
counts a pass, an exception counts an error, and in both failure cases
the cooldown state is left untouched.  `postTime` is the `time.time()`
value observed at the post.  Returns the state and the post time when a
message was appended to the bus. -/
def generateAutonomousResponse (cfg : BotConfig) (s : BotState)
    (postTime : ℚ) (gen : GenOutcome) : BotState × Option ℚ :=
  match gen with
  | .failure => ({ s with errors := s.errors + 1 }, none)
  | .success text =>
      if isBlank text then
        ({ s with passes_made := s.passes_made + 1 }, none)
      else
        let total := s.total_responses + 1
        let cd := max cfg.min_cooldown (cfg.min_cooldown + (total : ℚ) * (1/2))
        ({ s with
            last_response_time := postTime
            total_responses := total
            autonomous_responses := s.autonomous_responses + 1
            response_urgency := max 0 (s.response_urgency - 3/10)
            missed_opportunities := s.missed_opportunities - 1
            conversation_energy := min (3/2) (s.conversation_energy + 1/10)
            current_cooldown := min cd cfg.max_cooldown
            responses_generated := s.responses_generated + 1 }, some postTime)

/-- `_process_new_message`: cooldown gate, then the decision, then
possibly a generation attempt. -/
def processNewMessage (cfg : BotConfig) (s : BotState) (v : MsgView)
    (now postTime draw : ℚ) (gen : GenOutcome) : BotState × Option ℚ :=
  if now - s.last_response_time < s.current_cooldown then
    ({ s with missed_opportunities := s.missed_opportunities + 1,
              response_urgency := s.response_urgency + 1/10 }, none)
  else
    let d := shouldRespondAutonomously cfg s v now draw
    if d.1 then generateAutonomousResponse cfg d.2 postTime gen
    else (d.2, none)

/-- Observations and random draws of one
`_check_spontaneous_contribution` call: the history length, the
timestamp of the latest history message, the silence threshold drawn
from `random.uniform(7, 10)`, the agent's own message count among the
last 5 messages, and the two `random.random()` draws. -/
structure TimeoutView where
  history_len : Nat
  last_message_time : ℚ
  silence_threshold : ℚ
  my_recent_count5 : Nat
  draw_silence : ℚ
  draw_starter : ℚ
deriving Repr, DecidableEq

/-- `_check_spontaneous_contribution` (the `chat_log` handle is set for
the whole monitoring run, so the early `None`-guard return is
unreachable). -/
def checkSpontaneousContribution (cfg : BotConfig) (s : BotState)
    (tv : TimeoutView) (now postTime : ℚ) (gen : GenOutcome) :
    BotState × Option ℚ :=
  if now - s.last_response_time < s.current_cooldown then
    ({ s with missed_opportunities := s.missed_opportunities + 1,
              response_urgency := s.response_urgency + 1/10 }, none)
  else if 0 < tv.history_len then
    if tv.silence_threshold < now - tv.last_message_time then
      if tv.my_recent_count5 = 0 then
        if tv.draw_silence < 17/20 then
          let r := generateAutonomousResponse cfg s postTime gen
          ({ r.1 with silence_breaks := r.1.silence_breaks + 1 }, r.2)
        else (s, none)
      else (s, none)
    else if 3 < tv.history_len ∧ 15 < now - s.last_response_time
        ∧ tv.draw_starter < 3/10 then
      let r := generateAutonomousResponse cfg s postTime gen
      ({ r.1 with conversation_starters := r.1.conversation_starters + 1 }, r.2)
    else (s, none)
  else (s, none)

/-- One iteration of `_autonomous_monitor_loop`: either the subscription
delivered a message (with the wall-clock values and random draws observed
while processing it), or the `check_interval` wait timed out. -/
inductive Cycle where
  | incoming (v : MsgView) (now postTime draw : ℚ) (gen : GenOutcome)
  | timeout (tv : TimeoutView) (now postTime : ℚ) (gen : GenOutcome)
deriving Repr, DecidableEq

/-- A cycle's post happens no earlier than its gate check: `time.time()`
is non-decreasing between the two reads. -/
def CycleValid : Cycle → Prop
  | .incoming _ now postTime _ _ => now ≤ postTime
  | .timeout _ now postTime _ => now ≤ postTime

/-- One pass of the `while self.is_monitoring` loop body. -/
def monitorStep (cfg : BotConfig) (s : BotState) (c : Cycle) :
    BotState × Option ℚ :=
  if s.is_monitoring then
    match c with
    | .incoming v now postTime draw gen =>
        if v.sender == cfg.name then (s, none)
        else processNewMessage cfg s v now postTime draw gen
    | .timeout tv now postTime gen =>
        checkSpontaneousContribution cfg s tv now postTime gen
  else (s, none)

/-- Run the monitoring loop over a list of cycles, collecting every
posted action as the pair of its post time and the cooldown in force
immediately after the action. -/
def runMonitor (cfg : BotConfig) (s : BotState) :
    List Cycle → BotState × List (ℚ × ℚ)
  | [] => (s, [])
  | c :: cs =>
      let r := monitorStep cfg s c
      let rest := runMonitor cfg r.1 cs
      match r.2 with
      | some t => (rest.1, (t, r.1.current_cooldown) :: rest.2)
      | none => rest

/-- Every action is separated from its predecessor by at least the
cooldown in force at the predecessor, starting from the given last-action
time and cooldown. -/
def PostsOk : ℚ → ℚ → List (ℚ × ℚ) → Prop
  | _, _, [] => True
  | t, c, (u, d) :: rest => t + c ≤ u ∧ PostsOk u d rest

lemma shouldRespond_preserves (cfg : BotConfig) (s : BotState) (v : MsgView)
    (now draw : ℚ) :
    (shouldRespondAutonomously cfg s v now draw).2.last_response_time
        = s.last_response_time
    ∧ (shouldRespondAutonomously cfg s v now draw).2.current_cooldown
        = s.current_cooldown
    ∧ (shouldRespondAutonomously cfg s v now draw).2.total_responses
        = s.total_responses
    ∧ (shouldRespondAutonomously cfg s v now draw).2.is_monitoring
        = s.is_monitoring := by
  unfold shouldRespondAutonomously
  split
  · exact ⟨rfl, rfl, rfl, rfl⟩
  · split
    · exact ⟨rfl, rfl, rfl, rfl⟩
    · exact ⟨rfl, rfl, rfl, rfl⟩

/-- The cooldown recomputed after the `n`-th successful action:
`min(max(min_cooldown, min_cooldown + n*0.5), max_cooldown)`. -/
def cooldownOf (cfg : BotConfig) (n : Nat) : ℚ :=
  min (max cfg.min_cooldown (cfg.min_cooldown + (n : ℚ) * (1/2)))
    cfg.max_cooldown

lemma genResp_cases (cfg : BotConfig) (s : BotState) (postTime : ℚ)
    (gen : GenOutcome) :
    ((generateAutonomousResponse cfg s postTime gen).2 = none
      ∧ (generateAutonomousResponse cfg s postTime gen).1.last_response_time
          = s.last_response_time
      ∧ (generateAutonomousResponse cfg s postTime gen).1.current_cooldown
          = s.current_cooldown
      ∧ (generateAutonomousResponse cfg s postTime gen).1.total_responses
          = s.total_responses
      ∧ (generateAutonomousResponse cfg s postTime gen).1.is_monitoring
          = s.is_monitoring)
    ∨ ((generateAutonomousResponse cfg s postTime gen).2 = some postTime
      ∧ (generateAutonomousResponse cfg s postTime gen).1.last_response_time
          = postTime
      ∧ (generateAutonomousResponse cfg s postTime gen).1.total_responses
          = s.total_responses + 1
      ∧ (generateAutonomousResponse cfg s postTime gen).1.current_cooldown
          = cooldownOf cfg (s.total_responses + 1)
      ∧ (generateAutonomousResponse cfg s postTime gen).1.is_monitoring
          = s.is_monitoring) := by
  cases gen with
  | failure => left; simp [generateAutonomousResponse]
  | success text =>
      by_cases h : isBlank text
      · left; simp [generateAutonomousResponse, h]
      · right; simp [generateAutonomousResponse, cooldownOf, h]

lemma monitorStep_cases (cfg : BotConfig) (s : BotState) (c : Cycle)
    (hv : CycleValid c) :
    ((monitorStep cfg s c).2 = none
      ∧ (monitorStep cfg s c).1.last_response_time = s.last_response_time
      ∧ (monitorStep cfg s c).1.current_cooldown = s.current_cooldown
      ∧ (monitorStep cfg s c).1.total_responses = s.total_responses)
    ∨ (∃ t, (monitorStep cfg s c).2 = some t
      ∧ s.last_response_time + s.current_cooldown ≤ t
      ∧ (monitorStep cfg s c).1.last_response_time = t
      ∧ (monitorStep cfg s c).1.total_responses = s.total_responses + 1
      ∧ (monitorStep cfg s c).1.current_cooldown
          = cooldownOf cfg (s.total_responses + 1)) := by
  simp only [monitorStep]
  by_cases hm : s.is_monitoring
  · simp only [hm, if_true]
    cases c with
    | incoming v now postTime draw gen =>
        simp only [CycleValid] at hv
        by_cases hs : v.sender == cfg.name
        · simp [hs]
        · simp only [hs, Bool.false_eq_true, if_false, processNewMessage]
          by_cases hgate : now - s.last_response_time < s.current_cooldown
          · simp [hgate]
          · simp only [hgate, if_false]
            have hpre := shouldRespond_preserves cfg s v now draw
            obtain ⟨hp1, hp2, hp3, hp4⟩ := hpre
            by_cases hd : (shouldRespondAutonomously cfg s v now draw).1
            · simp only [hd, if_true]
              rcases genResp_cases cfg
                  (shouldRespondAutonomously cfg s v now draw).2 postTime gen with
                ⟨h1, h2, h3, h4, h5⟩ | ⟨h1, h2, h3, h4, h5⟩
              · exact Or.inl ⟨h1, by rw [h2, hp1], by rw [h3, hp2],
                  by rw [h4, hp3]⟩
              · refine Or.inr ⟨postTime, h1, ?_, h2, by rw [h3, hp3],
                  by rw [h4, hp3]⟩
                have : s.current_cooldown ≤ now - s.last_response_time :=
                  le_of_not_lt hgate
                linarith
            · simp only [Bool.not_eq_true] at hd
              simp [hd, hp1, hp2, hp3]
    | timeout tv now postTime gen =>
        simp only [CycleValid] at hv
        simp only [checkSpontaneousContribution]
        by_cases hgate : now - s.last_response_time < s.current_cooldown
        · simp [hgate]
        · simp only [hgate, if_false]
          have hle : s.last_response_time + s.current_cooldown ≤ postTime := by
            have : s.current_cooldown ≤ now - s.last_response_time :=
              le_of_not_lt hgate
            linarith
          by_cases h1 : 0 < tv.history_len
          · simp only [h1, if_true]
            by_cases h2 : tv.silence_threshold < now - tv.last_message_time
            · simp only [h2, if_true]
              by_cases h3 : tv.my_recent_count5 = 0
              · simp only [h3, if_true]
                by_cases h4 : tv.draw_silence < 17/20
                · simp only [h4, if_true]
                  rcases genResp_cases cfg s postTime gen with
                    ⟨g1, g2, g3, g4, g5⟩ | ⟨g1, g2, g3, g4, g5⟩
                  · exact Or.inl ⟨by simp [g1], by simp [g2], by simp [g3],
                      by simp [g4]⟩
                  · exact Or.inr ⟨postTime, by simp [g1], hle, by simp [g2],
                      by simp [g3], by simp [g4]⟩
                · simp [h4]
              · simp [h3]
            · simp only [h2, if_false]
              by_cases h5 : 3 < tv.history_len ∧ 15 < now - s.last_response_time
                  ∧ tv.draw_starter < 3/10
              · simp only [h5, if_true]
                rcases genResp_cases cfg s postTime gen with
                  ⟨g1, g2, g3, g4, g5⟩ | ⟨g1, g2, g3, g4, g5⟩
                · exact Or.inl ⟨by simp [g1], by simp [g2], by simp [g3],
                    by simp [g4]⟩
                · exact Or.inr ⟨postTime, by simp [g1], hle, by simp [g2],
                    by simp [g3], by simp [g4]⟩
              · simp [h5]
          · simp [h1]
  · simp [hm]

lemma runMonitor_postsOk (cfg : BotConfig) : ∀ (cs : List Cycle) (s : BotState),
    (∀ c ∈ cs, CycleValid c) →
    PostsOk s.last_response_time s.current_cooldown (runMonitor cfg s cs).2 := by
  intro cs
  induction cs with
  | nil => intro s _; simp only [runMonitor]; trivial
  | cons c cs ih =>
      intro s hv
      have hvc : CycleValid c := hv c (List.mem_cons_self c cs)
      have hvcs : ∀ x ∈ cs, CycleValid x := fun x hx =>
        hv x (List.mem_cons_of_mem c hx)
      rcases monitorStep_cases cfg s c hvc with
        ⟨h1, h2, h3, _⟩ | ⟨t, h1, h2, h3, _, _⟩
      · have : runMonitor cfg s (c :: cs) = runMonitor cfg (monitorStep cfg s c).1 cs := by
          simp only [runMonitor, h1]
        rw [this, ← h2, ← h3]
        exact ih (monitorStep cfg s c).1 hvcs
      · have : (runMonitor cfg s (c :: cs)).2
            = (t, (monitorStep cfg s c).1.current_cooldown) ::
              (runMonitor cfg (monitorStep cfg s c).1 cs).2 := by
          simp only [runMonitor, h1]
        rw [this]
        refine ⟨h2, ?_⟩
        rw [← h3]
        exact ih (monitorStep cfg s c).1 hvcs

lemma postsOk_chain : ∀ (ps : List (ℚ × ℚ)) (t c : ℚ), PostsOk t c ps →
    List.Chain' (fun p q : ℚ × ℚ => p.1 + p.2 ≤ q.1) ps := by
  intro ps
  induction ps with
  | nil => intro t c _; exact List.chain'_nil
  | cons p ps ih =>
      intro t c h
      obtain ⟨_, h2⟩ := h
      cases ps with
      | nil => exact List.chain'_singleton p
      | cons q qs =>
          exact List.Chain'.cons h2.1 (ih p.1 p.2 h2)

/-- C3.  A message from another sender arriving inside the cooldown
window produces no action that cycle: the agent only increments
`missed_opportunities` by one and bumps `response_urgency` by 0.1;
consequently, over any run of the monitoring loop, consecutive posted
actions are separated by at least the cooldown in force at the earlier
action. -/
theorem c3_cooldown_gate_and_spacing :
    (∀ (cfg : BotConfig) (s : BotState) (v : MsgView)
        (now postTime draw : ℚ) (gen : GenOutcome),
      s.is_monitoring = true → v.sender ≠ cfg.name →
      now - s.last_response_time < s.current_cooldown →
      monitorStep cfg s (.incoming v now postTime draw gen)
        = ({ s with missed_opportunities := s.missed_opportunities + 1,
                    response_urgency := s.response_urgency + 1/10 }, none))
    ∧ (∀ (cfg : BotConfig) (s : BotState) (cs : List Cycle),
      (∀ c ∈ cs, CycleValid c) →
      List.Chain' (fun p q : ℚ × ℚ => p.1 + p.2 ≤ q.1)
        (runMonitor cfg s cs).2) := by
  constructor
  · intro cfg s v now postTime draw gen hm hs hgate
    have hb : (v.sender == cfg.name) = false := beq_false_of_ne hs
    simp [monitorStep, hm, hb, processNewMessage, hgate]
  · intro cfg s cs hv
    exact postsOk_chain _ _ _ (runMonitor_postsOk cfg cs s hv)

/-- Witness for C3: a gated incoming message at a fresh agent, and a
two-cycle run whose posts respect the spacing law. -/
theorem c3_cooldown_gate_and_spacing_witness :
    monitorStep ⟨"Bot", "analytical", "pro", 2, 5, 12, 8, []⟩
        (initBotState ⟨"Bot", "analytical", "pro", 2, 5, 12, 8, []⟩)
        (.incoming ⟨"Human", "hi", ["hi"], "hi", false, 0, 0⟩ 2 2 0 .failure)
      = ({ initBotState ⟨"Bot", "analytical", "pro", 2, 5, 12, 8, []⟩ with
            missed_opportunities :=
              (initBotState ⟨"Bot", "analytical", "pro", 2, 5, 12, 8, []⟩).missed_opportunities + 1,
            response_urgency :=
              (initBotState ⟨"Bot", "analytical", "pro", 2, 5, 12, 8, []⟩).response_urgency + 1/10 }, none)
    ∧ List.Chain' (fun p q : ℚ × ℚ => p.1 + p.2 ≤ q.1)
        (runMonitor ⟨"Bot", "analytical", "pro", 2, 5, 12, 8, []⟩
          (initBotState ⟨"Bot", "analytical", "pro", 2, 5, 12, 8, []⟩)
          [.timeout ⟨4, 1, 8, 0, 0, 0⟩ 20 20 (.success "ok"),
           .timeout ⟨4, 20, 8, 0, 0, 0⟩ 40 40 (.success "more")]).2 := by
  constructor
  · exact c3_cooldown_gate_and_spacing.1
      ⟨"Bot", "analytical", "pro", 2, 5, 12, 8, []⟩
      (initBotState ⟨"Bot", "analytical", "pro", 2, 5, 12, 8, []⟩)
      ⟨"Human", "hi", ["hi"], "hi", false, 0, 0⟩ 2 2 0 .failure rfl
      (by decide) (by norm_num [initBotState])
  · exact c3_cooldown_gate_and_spacing.2
      ⟨"Bot", "analytical", "pro", 2, 5, 12, 8, []⟩
      (initBotState ⟨"Bot", "analytical", "pro", 2, 5, 12, 8, []⟩) _
      (by intro c hc
          fin_cases hc <;> exact le_refl _)

/-- C4.  A message whose word tokens contain one of the agent's name
variants or a broadcast-style address yields `direct_mention`, and a
`direct_mention` trigger forces the decision to act regardless of the
random draw, the other signals and the personality multiplier. -/
theorem c4_direct_mention_forces_action (cfg : BotConfig) (s : BotState)
    (v : MsgView) (now draw : ℚ) :
    ((nameVariants cfg).any (fun t => v.words.contains t) = true →
      (analyzeResponseTriggers cfg v now).direct_mention = true)
    ∧ ((analyzeResponseTriggers cfg v now).direct_mention = true →
      (shouldRespondAutonomously cfg s v now draw).1 = true) := by
  constructor
  · intro h
    have hd : (analyzeResponseTriggers cfg v now).direct_mention
        = (((nameVariants cfg).any fun t => v.words.contains t) ||
            (substrOf "what do you think" v.content_lower
              && cfg.stance != "neutral")) := rfl
    rw [hd, h, Bool.true_or]
  · intro h
    unfold shouldRespondAutonomously
    rw [if_pos h]

/-- Witness for C4: the broadcast address "everyone" forces action at an
adversarial draw of 1 (a draw that rejects every clamped probability). -/
theorem c4_direct_mention_forces_action_witness :
    (nameVariants ⟨"Socrates", "philosophical", "pro", 2, 5, 12, 8, []⟩).any
        (fun t => (["everyone"] : List String).contains t) = true
    ∧ (shouldRespondAutonomously ⟨"Socrates", "philosophical", "pro", 2, 5, 12, 8, []⟩
        (initBotState ⟨"Socrates", "philosophical", "pro", 2, 5, 12, 8, []⟩)
        ⟨"Human", "everyone", ["everyone"], "", false, 0, 0⟩ 0 1).1 = true := by
  have hany : (nameVariants ⟨"Socrates", "philosophical", "pro", 2, 5, 12, 8, []⟩).any
      (fun t => (["everyone"] : List String).contains t) = true :=
    List.any_eq_true.mpr ⟨"everyone", by simp [nameVariants], by decide⟩
  refine ⟨hany, ?_⟩
  exact (c4_direct_mention_forces_action
      ⟨"Socrates", "philosophical", "pro", 2, 5, 12, 8, []⟩
      (initBotState ⟨"Socrates", "philosophical", "pro", 2, 5, 12, 8, []⟩)
      ⟨"Human", "everyone", ["everyone"], "", false, 0, 0⟩ 0 1).2
    ((c4_direct_mention_forces_action
      ⟨"Socrates", "philosophical", "pro", 2, 5, 12, 8, []⟩
      (initBotState ⟨"Socrates", "philosophical", "pro", 2, 5, 12, 8, []⟩)
      ⟨"Human", "everyone", ["everyone"], "", false, 0, 0⟩ 0 1).1 hany)

lemma monitorStep_keeps_flag (cfg : BotConfig) (s : BotState) (c : Cycle) :
    (monitorStep cfg s c).1.is_monitoring = s.is_monitoring := by
  simp only [monitorStep]
  by_cases hm : s.is_monitoring
  · simp only [hm, if_true]
    cases c with
    | incoming v now postTime draw gen =>
        by_cases hs : v.sender == cfg.name
        · simp [hs, hm]
        · simp only [hs, Bool.false_eq_true, if_false, processNewMessage]
          by_cases hgate : now - s.last_response_time < s.current_cooldown
          · simp [hgate, hm]
          · simp only [hgate, if_false]
            have hp := (shouldRespond_preserves cfg s v now draw).2.2.2
            by_cases hd : (shouldRespondAutonomously cfg s v now draw).1
            · simp only [hd, if_true]
              rcases genResp_cases cfg
                  (shouldRespondAutonomously cfg s v now draw).2 postTime gen with
                ⟨_, _, _, _, g5⟩ | ⟨_, _, _, _, g5⟩ <;> rw [g5, hp, hm]
            · simp only [Bool.not_eq_true] at hd
              simp [hd, hp, hm]
    | timeout tv now postTime gen =>
        simp only [checkSpontaneousContribution]
        by_cases hgate : now - s.last_response_time < s.current_cooldown
        · simp [hgate, hm]
        · simp only [hgate, if_false]
          by_cases h1 : 0 < tv.history_len
          · simp only [h1, if_true]
            by_cases h2 : tv.silence_threshold < now - tv.last_message_time
            · simp only [h2, if_true]
              by_cases h3 : tv.my_recent_count5 = 0
              · simp only [h3, if_true]
                by_cases h4 : tv.draw_silence < 17/20
                · simp only [h4, if_true]
                  rcases genResp_cases cfg s postTime gen with
                    ⟨_, _, _, _, g5⟩ | ⟨_, _, _, _, g5⟩ <;> simp [g5, hm]
                · simp [h4, hm]
              · simp [h3, hm]
            · simp only [h2, if_false]
              by_cases h5 : 3 < tv.history_len ∧ 15 < now - s.last_response_time
                  ∧ tv.draw_starter < 3/10
              · simp only [h5, if_true]
                rcases genResp_cases cfg s postTime gen with
                  ⟨_, _, _, _, g5⟩ | ⟨_, _, _, _, g5⟩ <;> simp [g5, hm]
              · simp [h5, hm]
          · simp [h1, hm]
  · simp [hm]

/-- C6.  A failed generation attempt (exception) increments the error
count and nothing else, an empty result increments the pass count and
nothing else — in both cases `last_response_time`, `current_cooldown`,
`response_urgency` and `missed_opportunities` keep their values and no
message is posted — and no loop iteration ever clears the monitoring
flag, so a single failure never terminates monitoring. -/
theorem c6_generation_failure_recoverable (cfg : BotConfig) (s : BotState)
    (postTime : ℚ) :
    generateAutonomousResponse cfg s postTime .failure
      = ({ s with errors := s.errors + 1 }, none)
    ∧ (∀ text, isBlank text = true →
        generateAutonomousResponse cfg s postTime (.success text)
          = ({ s with passes_made := s.passes_made + 1 }, none))
    ∧ (∀ c : Cycle,
        (monitorStep cfg s c).1.is_monitoring = s.is_monitoring) := by
  refine ⟨rfl, ?_, ?_⟩
  · intro text h
    simp [generateAutonomousResponse, h]
  · intro c
    exact monitorStep_keeps_flag cfg s c

/-- Witness for C6: a blank generated text at a fresh agent counts a
pass and posts nothing. -/
theorem c6_generation_failure_recoverable_witness :
    generateAutonomousResponse ⟨"Bot", "critical", "con", 2, 5, 12, 8, []⟩
        (initBotState ⟨"Bot", "critical", "con", 2, 5, 12, 8, []⟩) 7
        (.success "  ")
      = ({ initBotState ⟨"Bot", "critical", "con", 2, 5, 12, 8, []⟩ with
            passes_made :=
              (initBotState ⟨"Bot", "critical", "con", 2, 5, 12, 8, []⟩).passes_made + 1 },
          none) :=
  (c6_generation_failure_recoverable
    ⟨"Bot", "critical", "con", 2, 5, 12, 8, []⟩
    (initBotState ⟨"Bot", "critical", "con", 2, 5, 12, 8, []⟩) 7).2.1 "  "
    (by decide)

lemma cooldownOf_mono (cfg : BotConfig) {n m : Nat} (h : n ≤ m) :
    cooldownOf cfg n ≤ cooldownOf cfg m := by
  unfold cooldownOf
  have hc : (n : ℚ) ≤ (m : ℚ) := by exact_mod_cast h
  gcongr

lemma cooldownOf_bounds (cfg : BotConfig)
    (h : cfg.min_cooldown ≤ cfg.max_cooldown) (n : Nat) :
    cfg.min_cooldown ≤ cooldownOf cfg n ∧ cooldownOf cfg n ≤ cfg.max_cooldown := by
  unfold cooldownOf
  exact ⟨le_min (le_max_left _ _) h, min_le_right _ _⟩

lemma cooldownOf_zero (cfg : BotConfig)
    (h : cfg.min_cooldown ≤ cfg.max_cooldown) :
    cooldownOf cfg 0 = cfg.min_cooldown := by
  unfold cooldownOf
  simp [min_eq_left h]

lemma runMonitor_fst_cons (cfg : BotConfig) (s : BotState) (c : Cycle)
    (cs : List Cycle) :
    (runMonitor cfg s (c :: cs)).1
      = (runMonitor cfg (monitorStep cfg s c).1 cs).1 := by
  simp only [runMonitor]
  cases h : (monitorStep cfg s c).2 <;> simp [h]

lemma runMonitor_cd_inv (cfg : BotConfig) : ∀ (cs : List Cycle) (s : BotState),
    (∀ c ∈ cs, CycleValid c) →
    s.current_cooldown = cooldownOf cfg s.total_responses →
    ((runMonitor cfg s cs).1.current_cooldown
        = cooldownOf cfg (runMonitor cfg s cs).1.total_responses
      ∧ s.total_responses ≤ (runMonitor cfg s cs).1.total_responses) := by
  intro cs
  induction cs with
  | nil => intro s _ hinv; exact ⟨hinv, le_refl _⟩
  | cons c cs ih =>
      intro s hv hinv
      have hvcs : ∀ x ∈ cs, CycleValid x := fun x hx =>
        hv x (List.mem_cons_of_mem c hx)
      rw [runMonitor_fst_cons]
      rcases monitorStep_cases cfg s c (hv c (List.mem_cons_self c cs)) with
        ⟨_, _, h3, h4⟩ | ⟨t, _, _, _, h4, h5⟩
      · have hstep : (monitorStep cfg s c).1.current_cooldown
            = cooldownOf cfg (monitorStep cfg s c).1.total_responses := by
          rw [h3, h4]; exact hinv
        obtain ⟨k1, k2⟩ := ih (monitorStep cfg s c).1 hvcs hstep
        exact ⟨k1, le_trans (le_of_eq h4.symm) k2⟩
      · have hstep : (monitorStep cfg s c).1.current_cooldown
            = cooldownOf cfg (monitorStep cfg s c).1.total_responses := by
          rw [h5, h4]
        obtain ⟨k1, k2⟩ := ih (monitorStep cfg s c).1 hvcs hstep
        refine ⟨k1, le_trans ?_ k2⟩
        rw [h4]
        exact Nat.le_succ _

lemma runMonitor_fst_append (cfg : BotConfig) :
    ∀ (cs cs' : List Cycle) (s : BotState),
    (runMonitor cfg s (cs ++ cs')).1
      = (runMonitor cfg (runMonitor cfg s cs).1 cs').1 := by
  intro cs
  induction cs with
  | nil => intro cs' s; rfl
  | cons c cs ih =>
      intro cs' s
      rw [List.cons_append, runMonitor_fst_cons, ih, runMonitor_fst_cons]

/-- C9.  `current_cooldown` starts at `min_cooldown`, always stays in
`[min_cooldown, max_cooldown]`, and — since each recomputation is a
monotone function of the total actions taken — never decreases over the
agent's lifetime (any longer run has a cooldown at least that of any
prefix run). -/
theorem c9_cooldown_bounded_monotone (cfg : BotConfig) (cs cs' : List Cycle)
    (hmm : cfg.min_cooldown ≤ cfg.max_cooldown)
    (hv : ∀ c ∈ cs ++ cs', CycleValid c) :
    (initBotState cfg).current_cooldown = cfg.min_cooldown
    ∧ cfg.min_cooldown
        ≤ (runMonitor cfg (initBotState cfg) cs).1.current_cooldown
    ∧ (runMonitor cfg (initBotState cfg) cs).1.current_cooldown
        ≤ cfg.max_cooldown
    ∧ (runMonitor cfg (initBotState cfg) cs).1.current_cooldown
        ≤ (runMonitor cfg (initBotState cfg) (cs ++ cs')).1.current_cooldown := by
  have hvcs : ∀ c ∈ cs, CycleValid c := fun c hc =>
    hv c (List.mem_append_left cs' hc)
  have hinit : (initBotState cfg).current_cooldown
      = cooldownOf cfg (initBotState cfg).total_responses := by
    show cfg.min_cooldown = cooldownOf cfg 0
    exact (cooldownOf_zero cfg hmm).symm
  obtain ⟨k1, _⟩ := runMonitor_cd_inv cfg cs (initBotState cfg) hvcs hinit
  obtain ⟨j1, j2⟩ := runMonitor_cd_inv cfg (cs ++ cs') (initBotState cfg) hv hinit
  refine ⟨rfl, ?_, ?_, ?_⟩
  · rw [k1]; exact (cooldownOf_bounds cfg hmm _).1
  · rw [k1]; exact (cooldownOf_bounds cfg hmm _).2
  · rw [k1, j1]
    apply cooldownOf_mono
    have hmono := (runMonitor_cd_inv cfg cs'
        (runMonitor cfg (initBotState cfg) cs).1
        (fun c hc => hv c (List.mem_append_right cs hc))
        k1).2
    rw [← runMonitor_fst_append] at hmono
    exact hmono

/-- Witness for C9 at the default cooldown bounds 5 and 12 with a
one-post run extended by a second cycle. -/
theorem c9_cooldown_bounded_monotone_witness :
    (initBotState ⟨"Bot", "analytical", "pro", 2, 5, 12, 8, []⟩).current_cooldown
        = (⟨"Bot", "analytical", "pro", 2, 5, 12, 8, []⟩ : BotConfig).min_cooldown
    ∧ (⟨"Bot", "analytical", "pro", 2, 5, 12, 8, []⟩ : BotConfig).min_cooldown
        ≤ (runMonitor ⟨"Bot", "analytical", "pro", 2, 5, 12, 8, []⟩
            (initBotState ⟨"Bot", "analytical", "pro", 2, 5, 12, 8, []⟩)
            [.timeout ⟨4, 1, 8, 0, 0, 0⟩ 20 20 (.success "ok")]).1.current_cooldown
    ∧ (runMonitor ⟨"Bot", "analytical", "pro", 2, 5, 12, 8, []⟩
        (initBotState ⟨"Bot", "analytical", "pro", 2, 5, 12, 8, []⟩)
        [.timeout ⟨4, 1, 8, 0, 0, 0⟩ 20 20 (.success "ok")]).1.current_cooldown
        ≤ (⟨"Bot", "analytical", "pro", 2, 5, 12, 8, []⟩ : BotConfig).max_cooldown
    ∧ (runMonitor ⟨"Bot", "analytical", "pro", 2, 5, 12, 8, []⟩
        (initBotState ⟨"Bot", "analytical", "pro", 2, 5, 12, 8, []⟩)
        [.timeout ⟨4, 1, 8, 0, 0, 0⟩ 20 20 (.success "ok")]).1.current_cooldown
        ≤ (runMonitor ⟨"Bot", "analytical", "pro", 2, 5, 12, 8, []⟩
            (initBotState ⟨"Bot", "analytical", "pro", 2, 5, 12, 8, []⟩)
            ([.timeout ⟨4, 1, 8, 0, 0, 0⟩ 20 20 (.success "ok")] ++
             [.timeout ⟨4, 20, 8, 0, 0, 0⟩ 40 40 (.success "more")])).1.current_cooldown :=
  c9_cooldown_bounded_monotone ⟨"Bot", "analytical", "pro", 2, 5, 12, 8, []⟩
    [.timeout ⟨4, 1, 8, 0, 0, 0⟩ 20 20 (.success "ok")]
    [.timeout ⟨4, 20, 8, 0, 0, 0⟩ 40 40 (.success "more")]
    (by norm_num)
    (by intro c hc
        fin_cases hc <;> exact le_refl _)

/-! ## Session orchestrator: `app/moderator.py` -/

/-- The `DebatePhase` enumeration of `app/moderator.py`. -/
inductive DebatePhase where
  | introduction
  | opening_statements
  | discussion
  | closing_statements
  | voting
  | results
  | finished
deriving Repr, DecidableEq

/-- The chat-log view of one `run_debate` call: each phase's own
broadcasts are collapsed into one marker, the fatal-error broadcast of
the `except` clause is `errorMsg`, and the `_cleanup_autonomous_tasks`
call of the `finally` clause is the `cleanup` marker. -/
inductive LogEntry where
  | phaseMsg (p : DebatePhase)
  | errorMsg
  | cleanup
deriving Repr, DecidableEq

structure SessionState where
  phase : DebatePhase
  log : List LogEntry
deriving Repr, DecidableEq

/-- The six phases of `run_debate`'s `try` block, in program order. -/
def phaseOrder : List DebatePhase :=
  [.introduction, .opening_statements, .discussion, .closing_statements,
   .voting, .results]

/-- The `try` block of `run_debate`: each phase first sets
`self.state.phase` and broadcasts; `f p = false` means an exception is
raised inside phase `p`, aborting the remaining phases.  Returns the
state and whether the block completed without an exception. -/
def runPhases (f : DebatePhase → Bool) :
    List DebatePhase → SessionState → SessionState × Bool
  | [], s => (s, true)
  | p :: ps, s =>
      let s' : SessionState := ⟨p, s.log ++ [.phaseMsg p]⟩
      if f p then runPhases f ps s' else (s', false)

/-- `run_debate`: the `try` block runs the six phases in order; on an
exception the `except` clause broadcasts one error message and
re-raises; the `finally` clause runs `_cleanup_autonomous_tasks` when in
autonomous mode and sets the phase to `FINISHED` in every case.  The
returned Bool is `false` exactly when the exception propagates to the
caller. -/
def runDebate (autonomous : Bool) (f : DebatePhase → Bool) :
    SessionState × Bool :=
  let r := runPhases f phaseOrder ⟨.introduction, []⟩
  let s1 : SessionState :=
    if r.2 then r.1 else ⟨r.1.phase, r.1.log ++ [.errorMsg]⟩
  let s2 : SessionState :=
    if autonomous then ⟨s1.phase, s1.log ++ [.cleanup]⟩ else s1
  (⟨.finished, s2.log⟩, r.2)

lemma runPhases_append_ok (f : DebatePhase → Bool) :
    ∀ (qs ps : List DebatePhase) (s : SessionState),
    (∀ q ∈ qs, f q = true) →
    ∃ ph, runPhases f (qs ++ ps) s
      = runPhases f ps ⟨ph, s.log ++ qs.map LogEntry.phaseMsg⟩ := by
  intro qs
  induction qs with
  | nil =>
      intro ps s _
      exact ⟨s.phase, by simp⟩
  | cons q qs ih =>
      intro ps s hok
      have hq : f q = true := hok q (List.mem_cons_self q qs)
      have hqs : ∀ x ∈ qs, f x = true := fun x hx =>
        hok x (List.mem_cons_of_mem q hx)
      obtain ⟨ph, hih⟩ := ih ps ⟨q, s.log ++ [LogEntry.phaseMsg q]⟩ hqs
      refine ⟨ph, ?_⟩
      rw [List.cons_append]
      show (if f q then runPhases f (qs ++ ps)
              ⟨q, s.log ++ [LogEntry.phaseMsg q]⟩
            else (⟨q, s.log ++ [LogEntry.phaseMsg q]⟩, false)) = _
      rw [if_pos hq, hih]
      simp

lemma runPhases_fail (f : DebatePhase → Bool) (p : DebatePhase)
    (ps : List DebatePhase) (s : SessionState) (hp : f p = false) :
    runPhases f (p :: ps) s
      = (⟨p, s.log ++ [LogEntry.phaseMsg p]⟩, false) := by
  simp [runPhases, hp]

/-- C5.  If a phase raises inside `run_debate`, no later phase runs,
exactly one error message is broadcast, the cleanup that stops every
monitoring loop runs after that broadcast and before the exception
reaches the caller, the exception still propagates, and the session
phase ends `Finished` no matter how the session ended. -/
theorem c5_phase_error_teardown (f : DebatePhase → Bool)
    (qs rs : List DebatePhase) (p : DebatePhase)
    (hsplit : phaseOrder = qs ++ p :: rs)
    (hok : ∀ q ∈ qs, f q = true) (hfail : f p = false) :
    (runDebate true f).1.log
        = (qs ++ [p]).map LogEntry.phaseMsg ++ [.errorMsg, .cleanup]
    ∧ (runDebate true f).1.log.count LogEntry.errorMsg = 1
    ∧ (∀ r ∈ rs, LogEntry.phaseMsg r ∉ (runDebate true f).1.log)
    ∧ (runDebate true f).2 = false
    ∧ (∀ (b : Bool) (g : DebatePhase → Bool),
        (runDebate b g).1.phase = DebatePhase.finished) := by
  have hrun : runPhases f phaseOrder ⟨DebatePhase.introduction, []⟩
      = ((⟨p, (qs ++ [p]).map LogEntry.phaseMsg⟩ : SessionState), false) := by
    obtain ⟨ph, hph⟩ :=
      runPhases_append_ok f qs (p :: rs) ⟨DebatePhase.introduction, []⟩ hok
    rw [hsplit, hph, runPhases_fail f p rs _ hfail]
    simp
  have hlog : (runDebate true f).1.log
      = (qs ++ [p]).map LogEntry.phaseMsg ++ [.errorMsg, .cleanup] := by
    simp [runDebate, hrun]
  have hcount : (runDebate true f).1.log.count LogEntry.errorMsg = 1 := by
    rw [hlog, List.count_append]
    have h0 : ((qs ++ [p]).map LogEntry.phaseMsg).count LogEntry.errorMsg = 0 := by
      rw [List.count_eq_zero]
      intro hmem
      rcases List.mem_map.mp hmem with ⟨x, _, hx⟩
      exact LogEntry.noConfusion hx
    rw [h0]
    rfl
  have hnotin : ∀ r ∈ rs, LogEntry.phaseMsg r ∉ (runDebate true f).1.log := by
    intro r hr
    have hnd : phaseOrder.Nodup := by decide
    rw [hsplit] at hnd
    rw [List.nodup_append] at hnd
    obtain ⟨_, hnd2, hdisj⟩ := hnd
    rw [hlog]
    intro hmem
    rcases List.mem_append.mp hmem with hmem | hmem
    · rcases List.mem_map.mp hmem with ⟨x, hx, hxr⟩
      have hxr' : x = r := by
        injection hxr
      subst hxr'
      rcases List.mem_append.mp hx with hx | hx
      · exact hdisj hx (List.mem_cons_of_mem p hr)
      · have : x = p := by simpa using hx
        subst this
        exact (List.nodup_cons.mp hnd2).1 hr
    · simp at hmem
  refine ⟨hlog, hcount, hnotin, by simp [runDebate, hrun], ?_⟩
  intro b g
  rfl

/-- Witness for C5: an error injected into the Discussion phase. -/
theorem c5_phase_error_teardown_witness :
    (runDebate true (fun p => p != DebatePhase.discussion)).1.log
        = (([.introduction, .opening_statements] : List DebatePhase)
            ++ ([.discussion] : List DebatePhase)).map LogEntry.phaseMsg
          ++ [LogEntry.errorMsg, LogEntry.cleanup]
    ∧ (runDebate true (fun p => p != DebatePhase.discussion)).1.log.count
        LogEntry.errorMsg = 1
    ∧ (∀ r ∈ ([.closing_statements, .voting, .results] : List DebatePhase),
        LogEntry.phaseMsg r
          ∉ (runDebate true (fun p => p != DebatePhase.discussion)).1.log)
    ∧ (runDebate true (fun p => p != DebatePhase.discussion)).2 = false
    ∧ (∀ (b : Bool) (g : DebatePhase → Bool),
        (runDebate b g).1.phase = DebatePhase.finished) :=
  c5_phase_error_teardown (fun p => p != DebatePhase.discussion)
    [.introduction, .opening_statements] [.closing_statements, .voting, .results]
    .discussion (by decide) (by decide) (by decide)

/-- The three time-remaining milestones of `_provide_time_updates`. -/
inductive Milestone where
  | five
  | two
  | one
deriving Repr, DecidableEq

/-- `_provide_time_updates`: broadcasts the 5-minute announcement when
the remaining time lies in `(299, 301]`, the 2-minute announcement in
`(119, 121]`, the 1-minute announcement in `(59, 61]`. -/
def provideTimeUpdates (remaining : ℚ) : Option Milestone :=
  if 299 < remaining ∧ remaining ≤ 301 then some .five
  else if 119 < remaining ∧ remaining ≤ 121 then some .two
  else if 59 < remaining ∧ remaining ≤ 61 then some .one
  else none

/-- The milestone broadcasts of `_facilitate_autonomous_discussion` over
one phase: the loop wakes at the given elapsed times and calls
`_provide_time_updates (total - elapsed)` at each wake-up. -/
def facilitationEmits (total : ℚ) (checks : List ℚ) : List Milestone :=
  checks.filterMap (fun t => provideTimeUpdates (total - t))

/-- Possible wake-up times of the facilitation loop: `await
asyncio.sleep(15)` guarantees at least 15 seconds before the first check
and between consecutive checks (and guarantees no upper bound). -/
def ChecksValid (checks : List ℚ) : Prop :=
  (∀ h ∈ checks.head?, (15 : ℚ) ≤ h)
  ∧ List.Chain' (fun a b => a + 15 ≤ b) checks

/-- A complete facilitation run for a phase of budget `total`: valid
gaps, the loop keeps polling while the `while` guard sees time remaining
(every non-final check happens before the budget expires), and it exits
after the first check at or past the budget. -/
def CompleteRun (total : ℚ) (checks : List ℚ) : Prop :=
  ChecksValid checks
  ∧ (∀ t ∈ checks.dropLast, t < total)
  ∧ (∀ t ∈ checks.getLast?, total ≤ t)

lemma ptu_five (r : ℚ) :
    provideTimeUpdates r = some Milestone.five ↔ (299 < r ∧ r ≤ 301) := by
  unfold provideTimeUpdates
  constructor
  · intro h
    split_ifs at h with h1 h2 h3 <;> simp_all
  · intro hr
    rw [if_pos hr]

lemma ptu_two (r : ℚ) :
    provideTimeUpdates r = some Milestone.two ↔ (119 < r ∧ r ≤ 121) := by
  unfold provideTimeUpdates
  constructor
  · intro h
    split_ifs at h with h1 h2 h3 <;> simp_all
  · intro hr
    have h1 : ¬(299 < r ∧ r ≤ 301) := by
      rintro ⟨a, _⟩
      linarith [hr.2]
    rw [if_neg h1, if_pos hr]

lemma ptu_one (r : ℚ) :
    provideTimeUpdates r = some Milestone.one ↔ (59 < r ∧ r ≤ 61) := by
  unfold provideTimeUpdates
  constructor
  · intro h
    split_ifs at h with h1 h2 h3 <;> simp_all
  · intro hr
    have h1 : ¬(299 < r ∧ r ≤ 301) := by
      rintro ⟨a, _⟩
      linarith [hr.2]
    have h2 : ¬(119 < r ∧ r ≤ 121) := by
      rintro ⟨a, _⟩
      linarith [hr.2]
    rw [if_neg h1, if_neg h2, if_pos hr]

lemma milestone_window (total t u : ℚ) (m : Milestone)
    (ht : provideTimeUpdates (total - t) = some m)
    (hu : provideTimeUpdates (total - u) = some m) :
    u - t < 2 := by
  cases m
  · rw [ptu_five] at ht hu
    linarith [ht.1, ht.2, hu.1, hu.2]
  · rw [ptu_two] at ht hu
    linarith [ht.1, ht.2, hu.1, hu.2]
  · rw [ptu_one] at ht hu
    linarith [ht.1, ht.2, hu.1, hu.2]

lemma chain_ge_of_head : ∀ (rest : List ℚ) (t : ℚ),
    List.Chain' (fun a b => a + 15 ≤ b) (t :: rest) →
    ∀ u ∈ rest, t + 15 ≤ u := by
  intro rest
  induction rest with
  | nil => intro t _ u hu; exact absurd hu (List.not_mem_nil u)
  | cons v rest ih =>
      intro t hch u hu
      have h1 : t + 15 ≤ v := List.chain'_cons.mp hch |>.1
      have h2 := List.chain'_cons.mp hch |>.2
      rcases List.mem_cons.mp hu with h | h
      · subst h; exact h1
      · have := ih v h2 u h
        linarith

lemma emits_count_le_one (total : ℚ) : ∀ (checks : List ℚ),
    List.Chain' (fun a b => a + 15 ≤ b) checks →
    ∀ m, (facilitationEmits total checks).count m ≤ 1 := by
  intro checks
  induction checks with
  | nil => intro _ m; simp [facilitationEmits]
  | cons t rest ih =>
      intro hch m
      have hch' : List.Chain' (fun a b => a + 15 ≤ b) rest := hch.tail
      have hstep : facilitationEmits total (t :: rest)
          = (provideTimeUpdates (total - t)).toList ++ facilitationEmits total rest := by
        simp [facilitationEmits, List.filterMap_cons]
        cases provideTimeUpdates (total - t) <;> simp
      rw [hstep]
      cases hpt : provideTimeUpdates (total - t) with
      | none => simpa using ih hch' m
      | some m' =>
          by_cases hmm : m' = m
          · subst hmm
            have hzero : (facilitationEmits total rest).count m' = 0 := by
              rw [List.count_eq_zero]
              intro hmem
              rcases List.mem_filterMap.mp hmem with ⟨u, hu, hequ⟩
              have hgap := chain_ge_of_head rest t hch u hu
              have hwin := milestone_window total t u m' hpt hequ
              linarith
            simp [hzero]
          · have hne : m ≠ m' := fun h => hmm h.symm
            have h1 : (Option.some m').toList.count m = 0 := by
              simp [List.count_cons, hne]
            rw [List.count_append, h1]
            simpa using ih hch' m

/-- C7 (amended).  Over any complete facilitation run, each milestone
announcement is emitted at most once: the guard windows are two seconds
wide while wake-ups are at least fifteen seconds apart, so no window can
be hit twice.  (The "never zero times" half of the original claim fails;
see the counterexample.) -/
theorem c7_time_updates_at_most_once (total : ℚ) (checks : List ℚ)
    (hv : ChecksValid checks) (m : Milestone) :
    (facilitationEmits total checks).count m ≤ 1 :=
  emits_count_le_one total checks hv.2 m

/-- Witness for C7 (amended) at a two-check run. -/
theorem c7_time_updates_at_most_once_witness :
    (facilitationEmits 360 [15, 30]).count Milestone.five ≤ 1 :=
  c7_time_updates_at_most_once 360 [15, 30]
    ⟨by intro h hh; simp at hh; rw [hh], by
      simp [List.chain'_cons]
      norm_num⟩ Milestone.five

/-- The non-final wake-ups of the counterexample run: exact 15-second
ticks with a single 17-second iteration (two seconds of event-loop
drift) between the third and fourth check. -/
def cexFront : List ℚ :=
  [15, 30, 45, 62, 77, 92, 107, 122, 137, 152, 167, 182, 197, 212, 227,
   242, 257, 272, 287, 302, 317, 332, 347]

/-- The complete counterexample run for a 360-second discussion phase. -/
def cexChecks : List ℚ := cexFront ++ [362]

/-- C7 counterexample.  A complete facilitation run of a 360-second
phase (budget exceeding the 5-minute milestone) in which every wake-up
misses the two-second guard windows: the 5-minute, 2-minute and
1-minute announcements are each emitted zero times, refuting "exactly
once ... neither zero times nor more than once". -/
theorem c7_time_updates_counterexample :
    CompleteRun 360 cexChecks
    ∧ (300 : ℚ) < 360
    ∧ (facilitationEmits 360 cexChecks).count Milestone.five = 0
    ∧ (facilitationEmits 360 cexChecks).count Milestone.two = 0
    ∧ (facilitationEmits 360 cexChecks).count Milestone.one = 0 := by
  have hemits : facilitationEmits 360 cexChecks = [] := by
    norm_num [facilitationEmits, cexChecks, cexFront, provideTimeUpdates]
  refine ⟨⟨⟨?_, ?_⟩, ?_, ?_⟩, by norm_num, by rw [hemits]; rfl,
    by rw [hemits]; rfl, by rw [hemits]; rfl⟩
  · intro h hh
    simp [cexChecks, cexFront] at hh
    rw [hh]
  · norm_num [cexChecks, cexFront, List.chain'_cons]
  · rw [cexChecks, List.dropLast_concat]
    intro t ht
    fin_cases ht <;> norm_num
  · rw [cexChecks, List.getLast?_concat]
    intro t ht
    simp at ht
    rw [← ht]
    norm_num

/-- Chat-log entries made during structured turns
(`Moderator._give_structured_turn` and its helpers). -/
inductive TurnMsg where
  | turnAnnounce (name : String)
  | warningMsg (name : String) (count : Nat)
  | responseMsg (name : String) (text : String)
  | turnError (name : String)
deriving Repr, DecidableEq

/-- The orchestrator state touched by a structured turn: the
`warnings_issued` dictionary of `DebateState` (insertion-ordered
association list), the participant set, the active speaker and the
broadcast log.  The embedding has no way to drop a participant or end
the session: `_handle_timeout` only counts and broadcasts. -/
structure TurnState where
  warnings_issued : List (String × Nat)
  participants : List String
  current_speaker : Option String
  log : List TurnMsg
deriving Repr, DecidableEq

/-- Python `d[k] = d.get(k, 0) + 1` on the insertion-ordered
`warnings_issued` dictionary. -/
def bumpWarnings : List (String × Nat) → String → List (String × Nat)
  | [], name => [(name, 1)]
  | p :: w, name =>
      if p.1 == name then (p.1, p.2 + 1) :: w
      else p :: bumpWarnings w name

/-- `self.state.warnings_issued.get(name, 0)`. -/
def warningsCount (w : List (String × Nat)) (name : String) : Nat :=
  ((w.find? (fun p => p.1 == name)).map (fun p => p.2)).getD 0

/-- `Moderator._handle_timeout`: bumps the participant's warning counter
and broadcasts the `Warning k/3` message; nothing else happens — the
third warning is recorded and announced but triggers no disconnect. -/
def handleTimeout (st : TurnState) (name : String) : TurnState :=
  let w := bumpWarnings st.warnings_issued name
  { st with
      warnings_issued := w
      log := st.log ++ [.warningMsg name (warningsCount w name)] }

/-- How the participant's `get_response` task ends within the turn's
time budget: it completes (possibly with an empty response), it is still
running when the budget expires (timeout), or it raises. -/
inductive TurnOutcome where
  | completed (response : Option String)
  | timedOut
  | errored
deriving Repr, DecidableEq

/-- `Moderator._give_structured_turn` (response-length truncation
omitted).  Returns the new state together with the number of response
tasks the turn cancelled. -/
def giveStructuredTurn (st : TurnState) (name : String)
    (outcome : TurnOutcome) : TurnState × Nat :=
  let st0 : TurnState :=
    { st with
        current_speaker := some name
        log := st.log ++ [.turnAnnounce name] }
  match outcome with
  | .timedOut =>
      let st1 := handleTimeout st0 name
      ({ st1 with current_speaker := none }, 1)
  | .completed r =>
      let st1 : TurnState :=
        match r with
        | some text => { st0 with log := st0.log ++ [.responseMsg name text] }
        | none => st0
      ({ st1 with current_speaker := none }, 0)
  | .errored =>
      ({ st0 with
          log := st0.log ++ [.turnError name]
          current_speaker := none }, 0)

/-- A sequence of structured turns, accumulating the cancellations. -/
def runTurns (st : TurnState) : List (String × TurnOutcome) → TurnState × Nat
  | [] => (st, 0)
  | (name, oc) :: ts =>
      let r := giveStructuredTurn st name oc
      let rest := runTurns r.1 ts
      (rest.1, r.2 + rest.2)

lemma warningsCount_bump_self (name : String) : ∀ w : List (String × Nat),
    warningsCount (bumpWarnings w name) name = warningsCount w name + 1 := by
  intro w
  induction w with
  | nil => simp [bumpWarnings, warningsCount]
  | cons p w ih =>
      by_cases h : p.1 == name
      · simp [bumpWarnings, h, warningsCount, List.find?_cons]
      · simp only [bumpWarnings, h, Bool.false_eq_true, if_false]
        simp only [warningsCount, List.find?_cons, h] at ih ⊢
        exact ih

lemma warningsCount_bump_other (name other : String) (hne : other ≠ name) :
    ∀ w : List (String × Nat),
    warningsCount (bumpWarnings w name) other = warningsCount w other := by
  intro w
  induction w with
  | nil =>
      have hb : (name == other) = false := beq_false_of_ne (fun h => hne h.symm)
      simp [bumpWarnings, warningsCount, hb]
  | cons p w ih =>
      by_cases h : p.1 == name
      · have hpo : (p.1 == other) = false := by
          have : p.1 = name := by simpa using h
          subst this
          exact beq_false_of_ne (fun hh => hne hh.symm)
        simp [bumpWarnings, h, warningsCount, List.find?_cons, hpo]
      · by_cases hpo : p.1 == other
        · simp [bumpWarnings, h, warningsCount, List.find?_cons, hpo]
        · simp only [bumpWarnings, h, Bool.false_eq_true, if_false]
          simp only [warningsCount, List.find?_cons, hpo] at ih ⊢
          exact ih

lemma giveStructuredTurn_timeout (st : TurnState) (name : String) :
    giveStructuredTurn st name .timedOut
      = ({ st with
            warnings_issued := bumpWarnings st.warnings_issued name
            current_speaker := none
            log := (st.log ++ [.turnAnnounce name]) ++
              [.warningMsg name
                (warningsCount (bumpWarnings st.warnings_issued name) name)] },
          1) := rfl

/-- C8.  A structured-turn timeout cancels exactly one in-flight
response task and increments exactly that participant's warning counter
by one (other counters and the participant set untouched; completed
turns cancel nothing); warnings accumulate, and after a participant's
third timeout the counter reads 3 while the participant set is still
unchanged — the recorded signal is advisory, nobody is disconnected and
the turn sequence keeps running. -/
theorem c8_timeout_warning_advisory (st : TurnState) (name other : String)
    (hne : other ≠ name) :
    (giveStructuredTurn st name .timedOut).2 = 1
    ∧ warningsCount (giveStructuredTurn st name .timedOut).1.warnings_issued name
        = warningsCount st.warnings_issued name + 1
    ∧ warningsCount (giveStructuredTurn st name .timedOut).1.warnings_issued other
        = warningsCount st.warnings_issued other
    ∧ (giveStructuredTurn st name .timedOut).1.participants = st.participants
    ∧ (∀ r, (giveStructuredTurn st name (.completed r)).2 = 0)
    ∧ warningsCount
        (runTurns st [(name, .timedOut), (name, .timedOut),
          (name, .timedOut)]).1.warnings_issued name
        = warningsCount st.warnings_issued name + 3
    ∧ (runTurns st [(name, .timedOut), (name, .timedOut),
        (name, .timedOut)]).1.participants = st.participants := by
  refine ⟨rfl, ?_, ?_, rfl, ?_, ?_, ?_⟩
  · rw [giveStructuredTurn_timeout]
    exact warningsCount_bump_self name st.warnings_issued
  · rw [giveStructuredTurn_timeout]
    exact warningsCount_bump_other name other hne st.warnings_issued
  · intro r
    cases r <;> rfl
  · show warningsCount
        (bumpWarnings (bumpWarnings (bumpWarnings st.warnings_issued name)
          name) name) name = warningsCount st.warnings_issued name + 3
    rw [warningsCount_bump_self, warningsCount_bump_self,
      warningsCount_bump_self]
  · rfl

/-- Witness for C8 with two named participants and an empty initial
warnings dictionary. -/
theorem c8_timeout_warning_advisory_witness :
    (giveStructuredTurn ⟨[], ["Alice", "Bob"], none, []⟩ "Alice" .timedOut).2 = 1
    ∧ warningsCount (giveStructuredTurn ⟨[], ["Alice", "Bob"], none, []⟩
        "Alice" .timedOut).1.warnings_issued "Alice"
        = warningsCount ([] : List (String × Nat)) "Alice" + 1
    ∧ warningsCount (giveStructuredTurn ⟨[], ["Alice", "Bob"], none, []⟩
        "Alice" .timedOut).1.warnings_issued "Bob"
        = warningsCount ([] : List (String × Nat)) "Bob"
    ∧ (giveStructuredTurn ⟨[], ["Alice", "Bob"], none, []⟩
        "Alice" .timedOut).1.participants = ["Alice", "Bob"]
    ∧ (∀ r, (giveStructuredTurn ⟨[], ["Alice", "Bob"], none, []⟩
        "Alice" (.completed r)).2 = 0)
    ∧ warningsCount (runTurns ⟨[], ["Alice", "Bob"], none, []⟩
        [("Alice", .timedOut), ("Alice", .timedOut),
         ("Alice", .timedOut)]).1.warnings_issued "Alice"
        = warningsCount ([] : List (String × Nat)) "Alice" + 3
    ∧ (runTurns ⟨[], ["Alice", "Bob"], none, []⟩
        [("Alice", .timedOut), ("Alice", .timedOut),
         ("Alice", .timedOut)]).1.participants = ["Alice", "Bob"] :=
  c8_timeout_warning_advisory ⟨[], ["Alice", "Bob"], none, []⟩ "Alice" "Bob"
    (by decide)

/-! ## Voting tally: `app/voting.py` -/

/-- The fields of the `Vote` dataclass read by the tally (justification,
timestamp and anonymity flag are carried by the source but never read by
the winner computation). -/
structure Vote where
  voter_id : String
  candidate : String
deriving Repr, DecidableEq

/-- Voting state of `VotingSystem`: `votes` is the insertion-ordered
dictionary keyed by `voter_id` (overwriting a key keeps its position, as
in a Python dict). -/
structure VotingSystem where
  is_active : Bool
  allow_participant_voting : Bool
  require_justification : Bool
  candidates : List String
  eligible_voters : List String
  votes : List Vote
  end_time : ℚ
deriving Repr, DecidableEq

/-- `VotingSystem._is_eligible_voter`: an empty eligibility list means
open voting. -/
def isEligibleVoter (s : VotingSystem) (voter : String) : Bool :=
  s.eligible_voters.isEmpty || s.eligible_voters.contains voter

/-- Python dict assignment `self.votes[voter_id] = vote`: an existing
key keeps its position and gets the new value, a new key is appended. -/
def dictInsert : List Vote → Vote → List Vote
  | [], v => [v]
  | w :: ws, v =>
      if w.voter_id == v.voter_id then v :: ws else w :: dictInsert ws v

/-- `VotingSystem.cast_vote` (`now` is the `time.time()` reading at the
call). -/
def castVote (s : VotingSystem) (now : ℚ) (voter candidate : String)
    (justification : Option String) : Except String VotingSystem :=
  if s.is_active = false then .error "No active voting session"
  else if s.end_time < now then .error "Voting period has ended"
  else if isEligibleVoter s voter = false then
    .error "Voter is not eligible to vote"
  else if s.candidates.contains candidate = false then
    .error "Invalid candidate"
  else if voter == candidate && !s.allow_participant_voting then
    .error "Self-voting is not allowed"
  else if s.require_justification && justification.isNone then
    .error "Vote justification is required"
  else .ok { s with votes := dictInsert s.votes ⟨voter, candidate⟩ }

/-- `collections.Counter` update for one occurrence: counter keys keep
first-occurrence order, counts grow in place. -/
def bumpCount : List (String × Nat) → String → List (String × Nat)
  | [], c => [(c, 1)]
  | p :: ps, c =>
      if p.1 == c then (p.1, p.2 + 1) :: ps else p :: bumpCount ps c

/-- `Counter(vote.candidate for vote in self.votes.values())`. -/
def voteCounts (votes : List Vote) : List (String × Nat) :=
  votes.foldl (fun acc v => bumpCount acc v.candidate) []

/-- `max(vote_counts.values())` (0 on the empty counter; the source only
evaluates it on a non-empty one). -/
def maxVotes (counts : List (String × Nat)) : Nat :=
  counts.foldl (fun a p => max a p.2) 0

/-- The winner computation of `VotingSystem.end_voting`: `None` with no
votes, the unique top candidate when one exists, otherwise the
`"TIE: "`-prefixed comma-separated listing of every top candidate. -/
def endVotingWinner (votes : List Vote) : Option String :=
  let counts := voteCounts votes
  if counts.isEmpty then none
  else
    let winners :=
      (counts.filter (fun p => p.2 == maxVotes counts)).map (fun p => p.1)
    if winners.length == 1 then some (winners.getD 0 "")
    else some ("TIE: " ++ String.intercalate ", " winners)

/-- `VotingSystem.end_voting` (result statistics beyond the winner
omitted): requires an active session, deactivates it and computes the
winner from the recorded votes. -/
def endVoting (s : VotingSystem) : Except String (VotingSystem × Option String) :=
  if s.is_active = false then .error "No active voting session"
  else .ok ({ s with is_active := false }, endVotingWinner s.votes)

/-- The tally the claim speaks about: how many counted (per-voter
latest) votes name candidate `c`. -/
def countFor (votes : List Vote) (c : String) : Nat :=
  (votes.filter (fun v => v.candidate == c)).length

/-- The most recent recorded choice of a voter, if any. -/
def voterLookup (votes : List Vote) (voter : String) : Option String :=
  (votes.find? (fun v => v.voter_id == voter)).map (fun v => v.candidate)

lemma voterLookup_insert_self (v : Vote) : ∀ votes : List Vote,
    voterLookup (dictInsert votes v) v.voter_id = some v.candidate := by
  intro votes
  induction votes with
  | nil => simp [dictInsert, voterLookup]
  | cons w ws ih =>
      by_cases h : w.voter_id == v.voter_id
      · simp [dictInsert, h, voterLookup, List.find?_cons]
      · simp only [dictInsert, h, Bool.false_eq_true, if_false]
        simp only [voterLookup, List.find?_cons, h] at ih ⊢
        exact ih

lemma voterLookup_insert_other (v : Vote) (other : String)
    (hne : other ≠ v.voter_id) : ∀ votes : List Vote,
    voterLookup (dictInsert votes v) other = voterLookup votes other := by
  intro votes
  induction votes with
  | nil =>
      have hb : (v.voter_id == other) = false :=
        beq_false_of_ne (fun h => hne h.symm)
      simp [dictInsert, voterLookup, hb]
  | cons w ws ih =>
      by_cases h : w.voter_id == v.voter_id
      · have hwo : (w.voter_id == other) = false := by
          have hv : w.voter_id = v.voter_id := by simpa using h
          rw [hv]
          exact beq_false_of_ne (fun hh => hne hh.symm)
        have hvo : (v.voter_id == other) = false :=
          beq_false_of_ne (fun hh => hne hh.symm)
        simp [dictInsert, h, voterLookup, List.find?_cons, hwo, hvo]
      · by_cases hwo : w.voter_id == other
        · simp [dictInsert, h, voterLookup, List.find?_cons, hwo]
        · simp only [dictInsert, h, Bool.false_eq_true, if_false]
          simp only [voterLookup, List.find?_cons, hwo] at ih ⊢
          exact ih

lemma dictInsert_keys_mem (v : Vote) : ∀ (votes : List Vote) (d : String),
    (d ∈ (dictInsert votes v).map Vote.voter_id
      ↔ d ∈ votes.map Vote.voter_id ∨ d = v.voter_id) := by
  intro votes
  induction votes with
  | nil => intro d; simp [dictInsert]
  | cons w ws ih =>
      intro d
      by_cases h : w.voter_id == v.voter_id
      · have hv : w.voter_id = v.voter_id := by simpa using h
        simp [dictInsert, h, hv]
        tauto
      · simp only [dictInsert, h, Bool.false_eq_true, if_false,
          List.map_cons, List.mem_cons]
        rw [ih d]
        tauto

lemma dictInsert_keys_nodup (v : Vote) : ∀ votes : List Vote,
    (votes.map Vote.voter_id).Nodup →
    ((dictInsert votes v).map Vote.voter_id).Nodup := by
  intro votes
  induction votes with
  | nil => intro _; simp [dictInsert]
  | cons w ws ih =>
      intro hnd
      rw [List.map_cons, List.nodup_cons] at hnd
      by_cases h : w.voter_id == v.voter_id
      · have hv : w.voter_id = v.voter_id := by simpa using h
        simp only [dictInsert, h, if_true, List.map_cons, List.nodup_cons]
        exact ⟨by rw [← hv]; exact hnd.1, hnd.2⟩
      · have hv : w.voter_id ≠ v.voter_id := by simpa using h
        simp only [dictInsert, h, Bool.false_eq_true, if_false,
          List.map_cons, List.nodup_cons]
        refine ⟨?_, ih hnd.2⟩
        rw [dictInsert_keys_mem]
        rintro (hmem | hmem)
        · exact hnd.1 hmem
        · exact hv hmem

lemma castVote_ok (s s' : VotingSystem) (now : ℚ) (voter candidate : String)
    (justification : Option String)
    (h : castVote s now voter candidate justification = .ok s') :
    s' = { s with votes := dictInsert s.votes ⟨voter, candidate⟩ } := by
  unfold castVote at h
  split_ifs at h
  simp_all

/-- The count stored in a counter for key `c` (0 when absent). -/
def cntOf (l : List (String × Nat)) (c : String) : Nat :=
  ((l.find? (fun p => p.1 == c)).map (fun p => p.2)).getD 0

lemma cntOf_bump_self (c : String) : ∀ l : List (String × Nat),
    cntOf (bumpCount l c) c = cntOf l c + 1 := by
  intro l
  induction l with
  | nil => simp [bumpCount, cntOf]
  | cons p l ih =>
      by_cases h : p.1 == c
      · simp [bumpCount, h, cntOf, List.find?_cons]
      · simp only [bumpCount, h, Bool.false_eq_true, if_false]
        simp only [cntOf, List.find?_cons, h] at ih ⊢
        exact ih

lemma cntOf_bump_other (c d : String) (hne : d ≠ c) :
    ∀ l : List (String × Nat), cntOf (bumpCount l c) d = cntOf l d := by
  intro l
  induction l with
  | nil =>
      have hb : (c == d) = false := beq_false_of_ne (fun h => hne h.symm)
      simp [bumpCount, cntOf, hb]
  | cons p l ih =>
      by_cases h : p.1 == c
      · have hpd : (p.1 == d) = false := by
          have hv : p.1 = c := by simpa using h
          rw [hv]
          exact beq_false_of_ne (fun hh => hne hh.symm)
        have hcd : (c == d) = false := beq_false_of_ne (fun hh => hne hh.symm)
        simp [bumpCount, h, cntOf, List.find?_cons, hpd, hcd]
      · by_cases hpd : p.1 == d
        · simp [bumpCount, h, cntOf, List.find?_cons, hpd]
        · simp only [bumpCount, h, Bool.false_eq_true, if_false]
          simp only [cntOf, List.find?_cons, hpd] at ih ⊢
          exact ih

lemma bumpCount_keys_mem (c : String) : ∀ (l : List (String × Nat)) (d : String),
    (d ∈ (bumpCount l c).map Prod.fst ↔ d ∈ l.map Prod.fst ∨ d = c) := by
  intro l
  induction l with
  | nil => intro d; simp [bumpCount]
  | cons p l ih =>
      intro d
      by_cases h : p.1 == c
      · have hv : p.1 = c := by simpa using h
        simp [bumpCount, h, hv]
        tauto
      · simp only [bumpCount, h, Bool.false_eq_true, if_false,
          List.map_cons, List.mem_cons]
        rw [ih d]
        tauto

lemma bumpCount_keys_nodup (c : String) : ∀ l : List (String × Nat),
    (l.map Prod.fst).Nodup → ((bumpCount l c).map Prod.fst).Nodup := by
  intro l
  induction l with
  | nil => intro _; simp [bumpCount]
  | cons p l ih =>
      intro hnd
      rw [List.map_cons, List.nodup_cons] at hnd
      by_cases h : p.1 == c
      · simp only [bumpCount, h, if_true, List.map_cons, List.nodup_cons]
        exact hnd
      · have hv : p.1 ≠ c := by simpa using h
        simp only [bumpCount, h, Bool.false_eq_true, if_false,
          List.map_cons, List.nodup_cons]
        refine ⟨?_, ih hnd.2⟩
        rw [bumpCount_keys_mem]
        rintro (hmem | hmem)
        · exact hnd.1 hmem
        · exact hv hmem

lemma countFor_cons (v : Vote) (vs : List Vote) (c : String) :
    countFor (v :: vs) c
      = (if v.candidate == c then 1 else 0) + countFor vs c := by
  by_cases h : v.candidate == c <;> simp [countFor, List.filter_cons, h]
  omega

lemma foldl_bump_cntOf : ∀ (votes : List Vote) (acc : List (String × Nat))
    (c : String),
    cntOf (votes.foldl (fun a v => bumpCount a v.candidate) acc) c
      = cntOf acc c + countFor votes c := by
  intro votes
  induction votes with
  | nil => intro acc c; simp [countFor]
  | cons v vs ih =>
      intro acc c
      rw [List.foldl_cons, ih, countFor_cons]
      by_cases h : v.candidate == c
      · have hv : v.candidate = c := by simpa using h
        rw [← hv, cntOf_bump_self]
        simp [h]
        omega
      · have hv : c ≠ v.candidate := fun hh => by simp [hh] at h
        rw [cntOf_bump_other v.candidate c hv]
        simp [h]

lemma foldl_bump_keys_mem : ∀ (votes : List Vote) (acc : List (String × Nat))
    (d : String),
    (d ∈ (votes.foldl (fun a v => bumpCount a v.candidate) acc).map Prod.fst
      ↔ d ∈ acc.map Prod.fst ∨ d ∈ votes.map Vote.candidate) := by
  intro votes
  induction votes with
  | nil => intro acc d; simp
  | cons v vs ih =>
      intro acc d
      rw [List.foldl_cons, ih, bumpCount_keys_mem]
      simp only [List.map_cons, List.mem_cons]
      tauto

lemma foldl_bump_keys_nodup : ∀ (votes : List Vote) (acc : List (String × Nat)),
    (acc.map Prod.fst).Nodup →
    ((votes.foldl (fun a v => bumpCount a v.candidate) acc).map Prod.fst).Nodup := by
  intro votes
  induction votes with
  | nil => intro acc h; exact h
  | cons v vs ih =>
      intro acc hnd
      rw [List.foldl_cons]
      exact ih _ (bumpCount_keys_nodup v.candidate acc hnd)

lemma voteCounts_cntOf (votes : List Vote) (c : String) :
    cntOf (voteCounts votes) c = countFor votes c := by
  unfold voteCounts
  rw [foldl_bump_cntOf]
  simp [cntOf]

lemma voteCounts_keys_mem (votes : List Vote) (c : String) :
    c ∈ (voteCounts votes).map Prod.fst ↔ c ∈ votes.map Vote.candidate := by
  unfold voteCounts
  rw [foldl_bump_keys_mem]
  simp

lemma voteCounts_keys_nodup (votes : List Vote) :
    ((voteCounts votes).map Prod.fst).Nodup := by
  unfold voteCounts
  exact foldl_bump_keys_nodup votes [] (by simp)

lemma mem_entry_of_key : ∀ (l : List (String × Nat)) (c : String),
    (l.map Prod.fst).Nodup → c ∈ l.map Prod.fst → (c, cntOf l c) ∈ l := by
  intro l
  induction l with
  | nil => intro c _ hc; simp at hc
  | cons p l ih =>
      intro c hnd hc
      by_cases h : p.1 == c
      · have hv : p.1 = c := by simpa using h
        have heq : cntOf (p :: l) c = p.2 := by
          simp [cntOf, List.find?_cons, h]
        rw [heq]
        have hpair : (c, p.2) = p := by
          rw [← hv]
        rw [hpair]
        exact List.mem_cons_self p l
      · have hcl : c ∈ l.map Prod.fst := by
          rw [List.map_cons] at hc
          rcases List.mem_cons.mp hc with hh | hh
          · exact absurd hh.symm (by simpa using h)
          · exact hh
        have : cntOf (p :: l) c = cntOf l c := by
          simp [cntOf, List.find?_cons, h]
        rw [this]
        right
        exact ih c (List.nodup_cons.mp hnd).2 hcl

lemma entry_val : ∀ (l : List (String × Nat)) (c : String) (k : Nat),
    (l.map Prod.fst).Nodup → (c, k) ∈ l → cntOf l c = k := by
  intro l
  induction l with
  | nil => intro c k _ hm; simp at hm
  | cons p l ih =>
      intro c k hnd hm
      rcases List.mem_cons.mp hm with hh | hh
      · rw [← hh]
        simp [cntOf, List.find?_cons]
      · by_cases hpc : p.1 == c
        · have hv : p.1 = c := by simpa using hpc
          have hmem : c ∈ l.map Prod.fst := List.mem_map.mpr ⟨(c, k), hh, rfl⟩
          rw [List.map_cons, List.nodup_cons, hv] at hnd
          exact absurd hmem hnd.1
        · have heq : cntOf (p :: l) c = cntOf l c := by
            simp [cntOf, List.find?_cons, hpc]
          rw [heq]
          have hnd' := hnd
          rw [List.map_cons, List.nodup_cons] at hnd'
          exact ih c k hnd'.2 hh

lemma le_foldl_max : ∀ (l : List (String × Nat)) (a : Nat),
    a ≤ l.foldl (fun x p => max x p.2) a := by
  intro l
  induction l with
  | nil => intro a; exact le_refl a
  | cons p l ih =>
      intro a
      exact le_trans (le_max_left a p.2) (ih (max a p.2))

lemma foldl_max_ge_mem : ∀ (l : List (String × Nat)) (a : Nat) (p : String × Nat),
    p ∈ l → p.2 ≤ l.foldl (fun x q => max x q.2) a := by
  intro l
  induction l with
  | nil => intro a p hp; simp at hp
  | cons q l ih =>
      intro a p hp
      rcases List.mem_cons.mp hp with hh | hh
      · rw [List.foldl_cons]
        subst hh
        exact le_trans (le_max_right a p.2) (le_foldl_max l (max a p.2))
      · rw [List.foldl_cons]
        exact ih (max a q.2) p hh

lemma foldl_max_attained : ∀ (l : List (String × Nat)) (a : Nat),
    l.foldl (fun x p => max x p.2) a = a
    ∨ ∃ p ∈ l, l.foldl (fun x p => max x p.2) a = p.2 := by
  intro l
  induction l with
  | nil => intro a; left; rfl
  | cons q l ih =>
      intro a
      rw [List.foldl_cons]
      rcases ih (max a q.2) with h | ⟨p, hp, hpe⟩
      · rcases Nat.le_total a q.2 with hle | hle
        · right
          exact ⟨q, List.mem_cons_self q l, by rw [h, Nat.max_eq_right hle]⟩
        · left
          rw [h, Nat.max_eq_left hle]
      · right
        exact ⟨p, List.mem_cons_of_mem q hp, hpe⟩

lemma maxVotes_ge (counts : List (String × Nat)) (p : String × Nat)
    (hp : p ∈ counts) : p.2 ≤ maxVotes counts :=
  foldl_max_ge_mem counts 0 p hp

lemma maxVotes_attained (counts : List (String × Nat)) (hne : counts ≠ []) :
    ∃ p ∈ counts, maxVotes counts = p.2 := by
  rcases foldl_max_attained counts 0 with h | h
  · rcases counts with _ | ⟨p, rest⟩
    · exact absurd rfl hne
    · refine ⟨p, List.mem_cons_self p rest, ?_⟩
      have h1 := maxVotes_ge (p :: rest) p (List.mem_cons_self p rest)
      have h2 : maxVotes (p :: rest) = 0 := h
      omega
  · exact h

lemma nodup_all_eq (c : String) : ∀ l : List String,
    l.Nodup → (∀ x ∈ l, x = c) → l ≠ [] → l = [c] := by
  intro l
  cases l with
  | nil => intro _ _ h; exact absurd rfl h
  | cons x t =>
      intro hnd hall _
      have hx : x = c := hall x (List.mem_cons_self x t)
      subst hx
      have ht : t = [] := by
        cases t with
        | nil => rfl
        | cons y t' =>
            have hy : y = x := hall y (List.mem_cons_of_mem x (List.mem_cons_self y t'))
            have : x ∉ y :: t' := (List.nodup_cons.mp hnd).1
            rw [hy] at this
            exact absurd (List.mem_cons_self x t') this
      rw [ht]

lemma endVotingWinner_unique (votes : List Vote) (c : String)
    (hc : c ∈ votes.map Vote.candidate)
    (hmax : ∀ d ∈ votes.map Vote.candidate, d ≠ c →
      countFor votes d < countFor votes c) :
    endVotingWinner votes = some c := by
  have hnd := voteCounts_keys_nodup votes
  have hcin : c ∈ (voteCounts votes).map Prod.fst :=
    (voteCounts_keys_mem votes c).mpr hc
  have hne : voteCounts votes ≠ [] := by
    intro h
    rw [h] at hcin
    simp at hcin
  have hmem : (c, countFor votes c) ∈ voteCounts votes := by
    have := mem_entry_of_key (voteCounts votes) c hnd hcin
    rwa [voteCounts_cntOf] at this
  have hmaxc : maxVotes (voteCounts votes) = countFor votes c := by
    obtain ⟨p, hp, hpv⟩ := maxVotes_attained (voteCounts votes) hne
    have hp1 : p.1 ∈ (voteCounts votes).map Prod.fst :=
      List.mem_map.mpr ⟨p, hp, rfl⟩
    have hpmem : (p.1, p.2) ∈ voteCounts votes := by
      rw [Prod.mk.eta]
      exact hp
    have hpv2 : countFor votes p.1 = p.2 := by
      have h1 := entry_val (voteCounts votes) p.1 p.2 hnd hpmem
      rw [voteCounts_cntOf] at h1
      exact h1
    by_cases hpc : p.1 = c
    · rw [hpv, ← hpv2, hpc]
    · have hlt := hmax p.1 ((voteCounts_keys_mem votes p.1).mp hp1) hpc
      have hge : countFor votes c ≤ maxVotes (voteCounts votes) := by
        have := maxVotes_ge (voteCounts votes) (c, countFor votes c) hmem
        simpa using this
      omega
  have hall : ∀ q ∈ (voteCounts votes).filter
      (fun p => p.2 == maxVotes (voteCounts votes)), q.1 = c := by
    intro q hq
    have hqc := (List.mem_filter.mp hq).1
    have hqf : (q.2 == maxVotes (voteCounts votes)) = true :=
      (List.mem_filter.mp hq).2
    have hq2 : q.2 = countFor votes c := by
      have : q.2 = maxVotes (voteCounts votes) := by simpa using hqf
      rw [this, hmaxc]
    by_cases hqc1 : q.1 = c
    · exact hqc1
    · have hqmem : (q.1, q.2) ∈ voteCounts votes := by
        rw [Prod.mk.eta]
        exact hqc
      have hq1mem : q.1 ∈ votes.map Vote.candidate :=
        (voteCounts_keys_mem votes q.1).mp (List.mem_map.mpr ⟨q, hqc, rfl⟩)
      have hlt := hmax q.1 hq1mem hqc1
      have hv : countFor votes q.1 = q.2 := by
        have h1 := entry_val (voteCounts votes) q.1 q.2 hnd hqmem
        rw [voteCounts_cntOf] at h1
        exact h1
      omega
  have hcF : (c, countFor votes c) ∈ (voteCounts votes).filter
      (fun p => p.2 == maxVotes (voteCounts votes)) :=
    List.mem_filter.mpr ⟨hmem, by simp [hmaxc]⟩
  have hFnd : (((voteCounts votes).filter
      (fun p => p.2 == maxVotes (voteCounts votes))).map Prod.fst).Nodup :=
    List.Nodup.sublist (List.Sublist.map Prod.fst (List.filter_sublist _)) hnd
  have hweq : ((voteCounts votes).filter
      (fun p => p.2 == maxVotes (voteCounts votes))).map Prod.fst = [c] := by
    refine nodup_all_eq c _ hFnd ?_ ?_
    · intro x hx
      rcases List.mem_map.mp hx with ⟨q, hq, hqx⟩
      rw [← hqx]
      exact hall q hq
    · intro hnil
      have : c ∈ ((voteCounts votes).filter
          (fun p => p.2 == maxVotes (voteCounts votes))).map Prod.fst :=
        List.mem_map.mpr ⟨(c, countFor votes c), hcF, rfl⟩
      rw [hnil] at this
      simp at this
  have hempty : (voteCounts votes).isEmpty = false := by
    cases hcv : voteCounts votes
    · exact absurd hcv hne
    · rfl
  simp [endVotingWinner, hempty, hweq]

lemma endVotingWinner_tie (votes : List Vote) (c₁ c₂ : String)
    (h1 : c₁ ∈ votes.map Vote.candidate) (h2 : c₂ ∈ votes.map Vote.candidate)
    (hne12 : c₁ ≠ c₂) (heq : countFor votes c₂ = countFor votes c₁)
    (htop : ∀ d ∈ votes.map Vote.candidate,
      countFor votes d ≤ countFor votes c₁) :
    ∃ ws : List String, ws.Nodup
      ∧ (∀ x, x ∈ ws ↔ x ∈ votes.map Vote.candidate
          ∧ countFor votes x = countFor votes c₁)
      ∧ 2 ≤ ws.length
      ∧ endVotingWinner votes
          = some ("TIE: " ++ String.intercalate ", " ws) := by
  have hnd := voteCounts_keys_nodup votes
  have hcin : c₁ ∈ (voteCounts votes).map Prod.fst :=
    (voteCounts_keys_mem votes c₁).mpr h1
  have hne : voteCounts votes ≠ [] := by
    intro h
    rw [h] at hcin
    simp at hcin
  have hment : ∀ d ∈ votes.map Vote.candidate,
      (d, countFor votes d) ∈ voteCounts votes := by
    intro d hd
    have := mem_entry_of_key (voteCounts votes) d hnd
      ((voteCounts_keys_mem votes d).mpr hd)
    rwa [voteCounts_cntOf] at this
  have hmaxc : maxVotes (voteCounts votes) = countFor votes c₁ := by
    obtain ⟨p, hp, hpv⟩ := maxVotes_attained (voteCounts votes) hne
    have hpmem : (p.1, p.2) ∈ voteCounts votes := by
      rw [Prod.mk.eta]
      exact hp
    have hpv2 : countFor votes p.1 = p.2 := by
      have hh := entry_val (voteCounts votes) p.1 p.2 hnd hpmem
      rw [voteCounts_cntOf] at hh
      exact hh
    have hp1 : p.1 ∈ votes.map Vote.candidate :=
      (voteCounts_keys_mem votes p.1).mp (List.mem_map.mpr ⟨p, hp, rfl⟩)
    have hle : countFor votes p.1 ≤ countFor votes c₁ := htop p.1 hp1
    have hge : countFor votes c₁ ≤ maxVotes (voteCounts votes) := by
      have := maxVotes_ge (voteCounts votes) (c₁, countFor votes c₁)
        (hment c₁ h1)
      simpa using this
    omega
  have hchar : ∀ x, (x ∈ ((voteCounts votes).filter
        (fun p => p.2 == maxVotes (voteCounts votes))).map Prod.fst
      ↔ x ∈ votes.map Vote.candidate
        ∧ countFor votes x = countFor votes c₁) := by
    intro x
    constructor
    · intro hx
      rcases List.mem_map.mp hx with ⟨q, hq, hqx⟩
      have hqc := (List.mem_filter.mp hq).1
      have hqf0 : (q.2 == maxVotes (voteCounts votes)) = true :=
        (List.mem_filter.mp hq).2
      have hqf : q.2 = maxVotes (voteCounts votes) := by simpa using hqf0
      have hqmem : (q.1, q.2) ∈ voteCounts votes := by
        rw [Prod.mk.eta]
        exact hqc
      have hv : countFor votes q.1 = q.2 := by
        have hh := entry_val (voteCounts votes) q.1 q.2 hnd hqmem
        rw [voteCounts_cntOf] at hh
        exact hh
      have hx1 : q.1 ∈ votes.map Vote.candidate :=
        (voteCounts_keys_mem votes q.1).mp (List.mem_map.mpr ⟨q, hqc, rfl⟩)
      rw [← hqx]
      exact ⟨hx1, by rw [hv, hqf, hmaxc]⟩
    · rintro ⟨hx1, hx2⟩
      refine List.mem_map.mpr ⟨(x, countFor votes x), ?_, rfl⟩
      refine List.mem_filter.mpr ⟨hment x hx1, ?_⟩
      simp [hx2, hmaxc]
  have hc1w : c₁ ∈ ((voteCounts votes).filter
      (fun p => p.2 == maxVotes (voteCounts votes))).map Prod.fst :=
    (hchar c₁).mpr ⟨h1, rfl⟩
  have hc2w : c₂ ∈ ((voteCounts votes).filter
      (fun p => p.2 == maxVotes (voteCounts votes))).map Prod.fst :=
    (hchar c₂).mpr ⟨h2, heq⟩
  have hlen2 : 2 ≤ (((voteCounts votes).filter
      (fun p => p.2 == maxVotes (voteCounts votes))).map Prod.fst).length := by
    rcases hws : ((voteCounts votes).filter
        (fun p => p.2 == maxVotes (voteCounts votes))).map Prod.fst with
      _ | ⟨a, _ | ⟨b, t⟩⟩
    · rw [hws] at hc1w
      simp at hc1w
    · rw [hws] at hc1w hc2w
      simp at hc1w hc2w
      exact absurd (hc1w.trans hc2w.symm) hne12
    · rw [hws]
      simp
  have hFnd : (((voteCounts votes).filter
      (fun p => p.2 == maxVotes (voteCounts votes))).map Prod.fst).Nodup :=
    List.Nodup.sublist (List.Sublist.map Prod.fst (List.filter_sublist _)) hnd
  have hempty : (voteCounts votes).isEmpty = false := by
    cases hcv : voteCounts votes
    · exact absurd hcv hne
    · rfl
  have hlen2f : 2 ≤ ((voteCounts votes).filter
      (fun p => p.2 == maxVotes (voteCounts votes))).length := by
    simpa using hlen2
  have hlenne : ((((voteCounts votes).filter
      (fun p => p.2 == maxVotes (voteCounts votes))).length)
        == 1) = false := by
    rw [beq_eq_false_iff_ne]
    omega
  refine ⟨((voteCounts votes).filter
      (fun p => p.2 == maxVotes (voteCounts votes))).map Prod.fst,
    hFnd, hchar, hlen2, ?_⟩
  simp [endVotingWinner, hempty, hlenne]

/-- C10.  `cast_vote` records the most recent choice per voter
(overwriting any previous vote from the same `voter_id`, never touching
other voters, never duplicating a voter); `end_voting` computes the
winner from those per-voter votes: `None` with no votes, the unique
plurality candidate when one exists, and otherwise the string `"TIE: "`
followed by the comma-separated tied candidates. -/
theorem c10_vote_replacement_and_winner :
    (∀ (s s' : VotingSystem) (now : ℚ) (voter candidate : String)
        (j : Option String),
      castVote s now voter candidate j = .ok s' →
      voterLookup s'.votes voter = some candidate
      ∧ (∀ w, w ≠ voter → voterLookup s'.votes w = voterLookup s.votes w)
      ∧ ((s.votes.map Vote.voter_id).Nodup →
          (s'.votes.map Vote.voter_id).Nodup))
    ∧ (∀ s : VotingSystem, s.is_active = true →
        endVoting s
          = .ok ({ s with is_active := false }, endVotingWinner s.votes))
    ∧ endVotingWinner [] = none
    ∧ (∀ (votes : List Vote) (c : String), c ∈ votes.map Vote.candidate →
        (∀ d ∈ votes.map Vote.candidate, d ≠ c →
          countFor votes d < countFor votes c) →
        endVotingWinner votes = some c)
    ∧ (∀ (votes : List Vote) (c₁ c₂ : String),
        c₁ ∈ votes.map Vote.candidate → c₂ ∈ votes.map Vote.candidate →
        c₁ ≠ c₂ → countFor votes c₂ = countFor votes c₁ →
        (∀ d ∈ votes.map Vote.candidate,
          countFor votes d ≤ countFor votes c₁) →
        ∃ ws : List String, ws.Nodup
          ∧ (∀ x, x ∈ ws ↔ x ∈ votes.map Vote.candidate
              ∧ countFor votes x = countFor votes c₁)
          ∧ 2 ≤ ws.length
          ∧ endVotingWinner votes
              = some ("TIE: " ++ String.intercalate ", " ws)) := by
  refine ⟨?_, ?_, rfl, endVotingWinner_unique, endVotingWinner_tie⟩
  · intro s s' now voter candidate j h
    have hs' := castVote_ok s s' now voter candidate j h
    subst hs'
    exact ⟨voterLookup_insert_self ⟨voter, candidate⟩ s.votes,
      fun w hw => voterLookup_insert_other ⟨voter, candidate⟩ w hw s.votes,
      dictInsert_keys_nodup ⟨voter, candidate⟩ s.votes⟩
  · intro s h
    unfold endVoting
    rw [h]
    simp

/-- Witness for C10: voter `v1` revotes from A to B; a three-vote
election with a unique winner; a two-vote tie yielding the `TIE: `
string. -/
theorem c10_vote_replacement_and_winner_witness :
    voterLookup (dictInsert [⟨"v1", "A"⟩] ⟨"v1", "B"⟩) "v1" = some "B"
    ∧ endVotingWinner
        [⟨"v1", "A"⟩, ⟨"v2", "B"⟩, ⟨"v3", "A"⟩] = some "A"
    ∧ (∃ ws : List String, ws.Nodup
        ∧ (∀ x, x ∈ ws ↔ x ∈ ([⟨"v1", "A"⟩, ⟨"v2", "B"⟩] : List Vote).map
              Vote.candidate
            ∧ countFor [⟨"v1", "A"⟩, ⟨"v2", "B"⟩] x
                = countFor [⟨"v1", "A"⟩, ⟨"v2", "B"⟩] "A")
        ∧ 2 ≤ ws.length
        ∧ endVotingWinner [⟨"v1", "A"⟩, ⟨"v2", "B"⟩]
            = some ("TIE: " ++ String.intercalate ", " ws)) := by
  refine ⟨?_, ?_, ?_⟩
  · have h := (c10_vote_replacement_and_winner.1
      ⟨true, true, false, ["A", "B"], [], [⟨"v1", "A"⟩], 100⟩
      ⟨true, true, false, ["A", "B"], [], dictInsert [⟨"v1", "A"⟩] ⟨"v1", "B"⟩, 100⟩
      0 "v1" "B" none rfl).1
    exact h
  · exact c10_vote_replacement_and_winner.2.2.2.1
      [⟨"v1", "A"⟩, ⟨"v2", "B"⟩, ⟨"v3", "A"⟩] "A" (by decide)
      (by decide)
  · exact c10_vote_replacement_and_winner.2.2.2.2
      [⟨"v1", "A"⟩, ⟨"v2", "B"⟩] "A" "B" (by decide) (by decide) (by decide)
      (by decide) (by decide)

end AIDebate
